import Mathlib

/-! Layer-partitioned inference drivers.

A shallow embedding of the two driver programs

* `examples/partial/partial.cpp` (the stage driver), and
* `examples/model-splitter/model-splitter.cpp` (the split CLI),

together with theorems about their input reading, evaluation call, output
writing and exit status.

Text is `List Char`.  The inference library (`llama.h`, `common.h`) and the
C library calls whose results depend on floating point (`printf("%f")`,
`std::stof`) are fields of an environment record; everything the two `main`
functions do themselves is translated statement by statement.  What is
written to standard error (warnings, the seed, system information, the
verbose prompt, timings) is left out: it has no effect on the rest of a run.
-/

set_option autoImplicit false

namespace Cxx

/-- The space character, the delimiter of the inner `std::getline`. -/
def SPACE : Char := Char.ofNat 32

/-- The newline character, the delimiter of the outer `std::getline`. -/
def NEWLINE : Char := Char.ofNat 10

/-- Exceptions of the C++ standard library that the drivers can raise. -/
inductive Exn where
  | invalid_argument
  | out_of_range
  | length_error
  deriving DecidableEq, Repr

deriving instance DecidableEq for Except

/-- How a run of a `main` function ends. -/
inductive Outcome where
  /-- The function `main` returned with this exit status. -/
  | returned (status : Int)
  /-- An exception left `main`: `std::terminate` is called, the process aborts. -/
  | terminated (e : Exn)
  /-- A failed `assert`: the process aborts. -/
  | aborted
  /-- Undefined behaviour (null `argv` entry, division by zero, `back()` of an
  empty vector). -/
  | undefined
  deriving DecidableEq, Repr

/-- The conversion `(int) n` of a `size_t` to a 32-bit `int` (two's complement
wrap-around). -/
def int_cast (n : Nat) : Int := ((n : Int) + 2 ^ 31) % 2 ^ 32 - 2 ^ 31

/-- One call `std::getline(is, str, delim)` on a stream whose remaining
content is the argument: `none` when no character can be extracted (the
stream is at its end, the call sets failbit and the loop condition is false);
otherwise the characters before the first `delim`, and the content that
remains after the delimiter, which is extracted and dropped. -/
def getline (delim : Char) : List Char → Option (List Char × List Char)
  | [] => none
  | c :: cs =>
    if c = delim then some ([], cs)
    else
      match getline delim cs with
      | none => some ([c], [])
      | some (l, r) => some (c :: l, r)

/-- The loop `for (std::string x; std::getline(is, x, delim);) body(x)`: the
strings `x` of the successive iterations, in order. -/
def getlines (delim : Char) (s : List Char) : List (List Char) :=
  match hg : getline delim s with
  | none => []
  | some (l, r) => l :: getlines delim r
termination_by s.length
decreasing_by
  have key : ∀ (t l r : List Char), getline delim t = some (l, r) → r.length < t.length := by
    intro t
    induction t with
    | nil => intro l r h; simp [getline] at h
    | cons c cs ih =>
      intro l r h
      unfold getline at h
      by_cases hc : c = delim
      · simp only [hc, if_true, Option.some.injEq, Prod.mk.injEq] at h
        rw [← h.2]; simp
      · simp only [hc, if_false] at h
        cases hq : getline delim cs with
        | none =>
          rw [hq] at h
          simp only [Option.some.injEq, Prod.mk.injEq] at h
          rw [← h.2]; simp
        | some p =>
          obtain ⟨l1, r1⟩ := p
          rw [hq] at h
          simp only [Option.some.injEq, Prod.mk.injEq] at h
          have := ih l1 r1 hq
          rw [← h.2]; simp only [List.length_cons]; omega
  exact key s l r hg

/-- The C function `isspace` in the "C" locale. -/
def isspace (c : Char) : Bool := c.toNat = 32 || (9 ≤ c.toNat && c.toNat ≤ 13)

/-- The sign accepted by `strtol`: whether the text starts with a minus, and
the text after the optional sign. -/
def strip_sign : List Char → Bool × List Char
  | [] => (false, [])
  | c :: cs =>
    if c.toNat = 45 then (true, cs)
    else if c.toNat = 43 then (false, cs)
    else (false, c :: cs)

/-- The value of a run of decimal digits. -/
def digits_value (ds : List Char) : Nat := ds.foldl (fun a c => 10 * a + (c.toNat - 48)) 0

/-- The call `std::stoi(str)` (base 10): leading white space is skipped, an
optional sign and the longest run of digits are converted, what follows is
ignored.  `std::invalid_argument` when there is no digit, `std::out_of_range`
when the value does not fit a 32-bit `int`. -/
def stoi (str : List Char) : Except Exn Int :=
  let p := strip_sign (str.dropWhile isspace)
  let ds := p.2.takeWhile Char.isDigit
  if ds = [] then Except.error Exn.invalid_argument
  else
    let v : Int := if p.1 then -(digits_value ds : Int) else (digits_value ds : Int)
    if v < -(2 ^ 31) ∨ 2 ^ 31 - 1 < v then Except.error Exn.out_of_range else Except.ok v

end Cxx

namespace StageDriver
open Cxx

/-- The fields of `gpt_params` (declared in `common.h`) that `main` reads or
writes; `F` is the type `float`. -/
structure gpt_params (F : Type) where
  model : List Char
  prompt : List Char
  seed : Int
  n_ctx : Int
  n_parts : Int
  n_threads : Int
  top_k : Int
  top_p : F
  temp : F
  repeat_penalty : F
  repeat_last_n : Int
  memory_f16 : Bool
  perplexity : Bool
  use_mmap : Bool
  use_mlock : Bool
  embedding : Bool
  random_prompt : Bool
  verbose_prompt : Bool

/-- The fields of `llama_context_params` that `main` sets before loading. -/
structure llama_context_params where
  n_ctx : Int
  n_parts : Int
  seed : Int
  f16_kv : Bool
  logits_all : Bool
  use_mmap : Bool
  use_mlock : Bool
  embedding : Bool
  part : Int × Int
  deriving DecidableEq

/-- Modelled from the spec: the aggregate that `main` passes to `llama_eval`,
whose declaration is in `llama.h`.  The four positional initialisers of the
source are the token pointer, the hidden-state pointer, the number of
positions and the row width; a null pointer is `none`, a pointer to the
elements `v` of a vector is `some v`. -/
structure llama_eval_input (F : Type) where
  tokens : Option (List Int)
  embd : Option (List F)
  n_tokens : Int
  n_embd : Int
  deriving DecidableEq

/-- One call of `llama_eval` as the driver makes it. -/
structure eval_call (F : Type) where
  input : llama_eval_input F
  n_past : Int
  n_threads : Int
  deriving DecidableEq

/-- One call of `llama_sample_top_p_top_k` as the driver makes it: the vector
`last_n_tokens`, the offset into it of the pointer passed as the window start,
and the window length. -/
structure sample_call where
  last_n_tokens : List Int
  start : Int
  n : Int
  deriving DecidableEq

/-- The library functions that `main` calls.  `Ctx` is the state behind a
`llama_context *`. -/
structure Env (F Ctx : Type) where
  gpt_params_default : gpt_params F
  /-- The function `gpt_params_parse`: `none` when it returns `false`. -/
  gpt_params_parse : List (List Char) → gpt_params F → Option (gpt_params F)
  /-- The value of `time(NULL)`. -/
  time : Int
  /-- The function `gpt_random_prompt` on a generator seeded with the argument. -/
  gpt_random_prompt : Int → List Char
  /-- The function `llama_init_from_file`: `none` when it returns `NULL`. -/
  llama_init_from_file : List Char → llama_context_params → Option Ctx
  llama_n_embd : Ctx → Int
  llama_n_layer : Ctx → Int
  llama_tokenize : Ctx → List Char → Bool → List Int
  /-- The function `llama_eval`: its return value and the state it leaves. -/
  llama_eval : Ctx → llama_eval_input F → Int → Int → Int × Ctx
  /-- The function `llama_sample_top_p_top_k` on the values it reads through
  the window pointer (`none` for a read outside the vector). -/
  llama_sample_top_p_top_k : Ctx → List (Option Int) → Int → Int → F → F → F → Int
  llama_token_to_str : Ctx → Int → List Char
  /-- The buffer behind the pointer `llama_get_embeddings` returns. -/
  llama_get_embeddings : Ctx → Int → F
  /-- The text `printf("%f", x)` writes. -/
  printf_f : F → List Char
  /-- The function `std::stof`. -/
  stof : List Char → Except Exn F

/-- What a run of the driver does that the outside can see (standard error
apart). -/
structure Run (F : Type) where
  outcome : Outcome
  evals : List (eval_call F)
  samples : List sample_call
  out : List Char

/-- A run that ends before any library call that is recorded. -/
def Run.stop {F : Type} (o : Outcome) : Run F := ⟨o, [], [], []⟩

/-- The flag `has_tokens_as_input` of `main`. -/
def has_tokens_as_input (first_layer : Int) : Bool := first_layer == 0

/-- The flag `has_tokens_as_output` of `main`. -/
def has_tokens_as_output (last_layer n_layer : Int) : Bool := last_layer == n_layer

/-- The strings handed to `std::stof` by the two nested `std::getline` loops,
in order: every line of standard input is cut at spaces. -/
def read_segments (stdin : List Char) : List (List Char) :=
  (getlines NEWLINE stdin).flatMap (fun line => getlines SPACE line)

/-- The calls `embd.push_back(std::stof(segment))` over the segments in order;
the first exception ends the loop. -/
def push_back_all {F : Type} (stof : List Char → Except Exn F) :
    List (List Char) → Except Exn (List F)
  | [] => Except.ok []
  | seg :: segs =>
    match stof seg with
    | Except.error e => Except.error e
    | Except.ok x =>
      match push_back_all stof segs with
      | Except.error e => Except.error e
      | Except.ok xs => Except.ok (x :: xs)

/-- The reader of the `else` branch at the input step: the vector `embd`
after the loops, or the exception that left them. -/
def read_embd {F : Type} (stof : List Char → Except Exn F) (stdin : List Char) :
    Except Exn (List F) :=
  push_back_all stof (read_segments stdin)

/-- The body of the outer loop of the output step for row `j`: the inner
loop over `i` and the final newline. -/
def print_row {F : Type} (printf_f : F → List Char) (embeddings : Int → F)
    (stride n_embd : Int) (j : Nat) : List Char :=
  ((List.range n_embd.toNat).flatMap fun i =>
    printf_f (embeddings ((j : Int) * stride + (i : Int))) ++
      (if (i : Int) < n_embd - 1 then [SPACE] else [])) ++ [NEWLINE]

/-- The output loop `for (int j = 0; j < embd_inp.size(); j++)`, with `rows`
the value of `embd_inp.size()` and `stride` the value of `llama_n_embd(ctx)`. -/
def print_embeddings {F : Type} (printf_f : F → List Char) (embeddings : Int → F)
    (stride n_embd : Int) (rows : Nat) : List Char :=
  (List.range rows).flatMap (print_row printf_f embeddings stride n_embd)

/-- The wire format of one row in the words of the specification: the
formatted values of the row, separated by single spaces. -/
def wire_row {F : Type} (printf_f : F → List Char) (row : List F) : List Char :=
  List.intercalate [SPACE] (row.map printf_f)

/-- The wire format of a batch in the words of the specification: one line
per row, each closed by a newline. -/
def wire_batch {F : Type} (printf_f : F → List Char) (rows : List (List F)) : List Char :=
  (rows.map fun row => wire_row printf_f row ++ [NEWLINE]).flatten

/-- The rows of the row-major `T × D` matrix held in a buffer: element `i` of
row `j` is element `j * D + i` of the buffer. -/
def matrix_rows {F : Type} (buffer : Int → F) (D : Int) (T : Nat) : List (List F) :=
  (List.range T).map fun (j : Nat) =>
    (List.range D.toNat).map fun (i : Nat) => buffer ((j : Int) * D + (i : Int))

/-- A read of `p[idx]` where `p` points at element 0 of the vector `v`:
`none` outside the vector. -/
def vec_read (v : List Int) (idx : Int) : Option Int :=
  if 0 ≤ idx then v[idx.toNat]? else none

/-- The `n` values read through a window pointer at offset `start`. -/
def window (v : List Int) (start n : Int) : List (Option Int) :=
  (List.range n.toNat).map (fun k => vec_read v (start + (k : Int)))

/-- The output step of `main` once `llama_eval` has returned 0. -/
def write_output {F Ctx : Type} (env : Env F Ctx) (params : gpt_params F) (ctx : Ctx)
    (last_layer n_layer n_embd : Int) (embd_inp : List Int) (evals : List (eval_call F)) :
    Run F :=
  if has_tokens_as_output last_layer n_layer then
    if params.repeat_last_n < 0 then
      ⟨Outcome.terminated Exn.length_error, evals, [], []⟩
    else if params.repeat_last_n = 0 then
      ⟨Outcome.undefined, evals, [], []⟩
    else
      let last_n_tokens : List Int := List.replicate params.repeat_last_n.toNat 0
      let start : Int := ((last_n_tokens.length : Int) - 1) - params.repeat_last_n
      let id := env.llama_sample_top_p_top_k ctx
        (window last_n_tokens start params.repeat_last_n) params.repeat_last_n
        params.top_k params.top_p params.temp params.repeat_penalty
      ⟨Outcome.returned 0, evals, [⟨last_n_tokens, start, params.repeat_last_n⟩],
        env.llama_token_to_str ctx id ++ [NEWLINE]⟩
  else
    ⟨Outcome.returned 0, evals, [],
      print_embeddings env.printf_f (env.llama_get_embeddings ctx) (env.llama_n_embd ctx)
        n_embd embd_inp.length⟩

/-- The pointer `v.data()` of a vector that is filled by `push_back` only:
the null pointer (`none`) while the vector holds nothing (a default-constructed
vector has no storage), a pointer to its elements otherwise. -/
def vector_data {α : Type} : List α → Option (List α)
  | [] => none
  | x :: xs => some (x :: xs)

/-- The aggregate `{embd_inp.data(), NULL, (int) embd_inp.size(), 0}` of the
first call of `llama_eval` in the source.  The vector `embd_inp` is the one
`llama_tokenize` returned; its `data()` is a pointer to its elements. -/
def tokens_input {F : Type} (embd_inp : List Int) : llama_eval_input F :=
  ⟨some embd_inp, none, int_cast embd_inp.length, 0⟩

/-- The aggregate `{NULL, embd.data(), (int) embd.size() / n_embd, n_embd}` of
the second call of `llama_eval` in the source.  The vector `embd` is
default-constructed and filled by `push_back`, so that `embd.data()` is null
when no value was read; the division is that of C, which truncates. -/
def hidden_input {F : Type} (embd : List F) (n_embd : Int) : llama_eval_input F :=
  ⟨none, vector_data embd, (int_cast embd.length).tdiv n_embd, n_embd⟩

/-- The evaluation step of `main` and what follows it. -/
def eval_and_output {F Ctx : Type} (env : Env F Ctx) (params : gpt_params F) (ctx : Ctx)
    (first_layer last_layer : Int) (embd_inp : List Int) (embd : List F) : Run F :=
  let n_past : Int := 0
  let n_embd := env.llama_n_embd ctx
  let n_layer := env.llama_n_layer ctx
  if has_tokens_as_input first_layer then
    let call : eval_call F := ⟨tokens_input embd_inp, n_past, params.n_threads⟩
    let r := env.llama_eval ctx call.input call.n_past call.n_threads
    if r.1 ≠ 0 then ⟨Outcome.returned 1, [call], [], []⟩
    else write_output env params r.2 last_layer n_layer n_embd embd_inp [call]
  else if n_embd = 0 ∨ (int_cast embd.length = -(2 ^ 31) ∧ n_embd = -1) then
    Run.stop Outcome.undefined
  else
    let call : eval_call F := ⟨hidden_input embd n_embd, n_past, params.n_threads⟩
    let r := env.llama_eval ctx call.input call.n_past call.n_threads
    if r.1 ≠ 0 then ⟨Outcome.returned 1, [call], [], []⟩
    else write_output env params r.2 last_layer n_layer n_embd embd_inp [call]

/-- The part of `main` after the model is loaded: the input step, then the
evaluation and the output. -/
def run_loaded {F Ctx : Type} (env : Env F Ctx) (params : gpt_params F) (ctx : Ctx)
    (first_layer last_layer : Int) (stdin : List Char) : Run F :=
  if has_tokens_as_input first_layer then
    let prompt := SPACE :: params.prompt
    let embd_inp := env.llama_tokenize ctx prompt true
    eval_and_output env { params with prompt := prompt } ctx first_layer last_layer embd_inp []
  else
    match read_embd env.stof stdin with
    | Except.error e => Run.stop (Outcome.terminated e)
    | Except.ok embd => eval_and_output env params ctx first_layer last_layer [] embd

/-- The parameters after the statements between `gpt_params_parse` and the
load: `embedding` is set, a seed that is not positive is replaced by the
clock, a random prompt is drawn when asked for. -/
def prepare_params {F Ctx : Type} (env : Env F Ctx) (params : gpt_params F) : gpt_params F :=
  let p1 := { params with embedding := true }
  let p2 := if p1.seed ≤ 0 then { p1 with seed := env.time } else p1
  if p2.random_prompt then { p2 with prompt := env.gpt_random_prompt p2.seed } else p2

/-- The `lparams` that `main` passes to `llama_init_from_file`. -/
def make_lparams {F : Type} (params : gpt_params F) (first_layer last_layer : Int) :
    llama_context_params :=
  { n_ctx := params.n_ctx, n_parts := params.n_parts, seed := params.seed,
    f16_kv := params.memory_f16, logits_all := params.perplexity,
    use_mmap := params.use_mmap, use_mlock := params.use_mlock,
    embedding := params.embedding, part := (first_layer, last_layer) }

/-- The function `main` of `partial.cpp` on the argument vector `argv`
(`argv[0]` included) and the content of standard input. -/
def main {F Ctx : Type} (env : Env F Ctx) (argv : List (List Char)) (stdin : List Char) :
    Run F :=
  match argv[1]? with
  | none => Run.stop Outcome.undefined
  | some a1 =>
    match stoi a1 with
    | Except.error e => Run.stop (Outcome.terminated e)
    | Except.ok first_layer =>
      match argv[2]? with
      | none => Run.stop Outcome.undefined
      | some a2 =>
        match stoi a2 with
        | Except.error e => Run.stop (Outcome.terminated e)
        | Except.ok last_layer =>
          match env.gpt_params_parse (argv.drop 2)
              { env.gpt_params_default with model := "models/llama-7B/ggml-model.bin".toList } with
          | none => Run.stop (Outcome.returned 1)
          | some parsed =>
            let params := prepare_params env parsed
            match env.llama_init_from_file params.model
                (make_lparams params first_layer last_layer) with
            | none => Run.stop (Outcome.returned 1)
            | some ctx => run_loaded env params ctx first_layer last_layer stdin

end StageDriver

namespace SplitCLI
open Cxx

/-- Modelled from the spec: the function `llama_model_split` of the library,
which is absent; `split(in_path, out_path, first, last)` is `ok` (0) or `fail`
(1), and fails when the input is unusable, when `first, last` are out of range
or `first ≥ last`, or when the output cannot be written.  `N` is the layer
count of the model at `in_path`, `none` when the file is unreadable;
`writable` says whether `out_path` can be written. -/
def llama_model_split (N : List Char → Option Int) (writable : List Char → Bool)
    (fname_in fname_out : List Char) (first_layer last_layer : Int) : Int :=
  match N fname_in with
  | none => 1
  | some n =>
    if 0 ≤ first_layer ∧ first_layer < last_layer ∧ last_layer ≤ n ∧
        writable fname_out = true then 0
    else 1

/-- What a run of the split CLI does: how it ends, and the value returned
by the call of `llama_model_split` when the run reaches it. -/
structure Run where
  outcome : Outcome
  split_status : Option Int
  deriving DecidableEq

/-- The function `main` of `model-splitter.cpp` on the argument vector
(`argv[0]` included); `split` is the library function it calls.  The
statement `assert(argc == 5)` aborts on any other number of arguments.  The
value of the call is not used and `main` has no `return` statement, so that
reaching the end of `main` is `return 0`. -/
def main (split : List Char → List Char → Int → Int → Int) (argv : List (List Char)) :
    Run :=
  if argv.length ≠ 5 then ⟨Outcome.aborted, none⟩
  else
    match argv[1]?, argv[2]?, argv[3]?, argv[4]? with
    | some a1, some a2, some fname_in, some fname_out =>
      match stoi a1 with
      | Except.error e => ⟨Outcome.terminated e, none⟩
      | Except.ok first_layer =>
        match stoi a2 with
        | Except.error e => ⟨Outcome.terminated e, none⟩
        | Except.ok last_layer =>
          ⟨Outcome.returned 0, some (split fname_in fname_out first_layer last_layer)⟩
    | _, _, _, _ => ⟨Outcome.undefined, none⟩

end SplitCLI

/-! ## A small concrete library

A stand-in for the inference library on which the definitions above can be
evaluated: a model of 4 layers and width 2 whose layers are the identity,
with `Bool` for `float` (printed as one digit).
-/

namespace Toy
open Cxx StageDriver

/-- The default parameters of the stand-in. -/
def params : gpt_params Bool :=
  { model := [], prompt := [], seed := 1, n_ctx := 512, n_parts := -1, n_threads := 4,
    top_k := 40, top_p := true, temp := true, repeat_penalty := true, repeat_last_n := 64,
    memory_f16 := true, perplexity := false, use_mmap := true, use_mlock := false,
    embedding := false, random_prompt := false, verbose_prompt := false }

/-- One digit for a value. -/
def printf_f (x : Bool) : List Char := if x then [Char.ofNat 49] else [Char.ofNat 48]

/-- The digit read back; any other text is not a number. -/
def stof (s : List Char) : Except Exn Bool :=
  if s = [Char.ofNat 49] then Except.ok true
  else if s = [Char.ofNat 48] then Except.ok false
  else Except.error Exn.invalid_argument

/-- The stand-in library.  The state is the output buffer; `llama_eval`
accepts every input and leaves the hidden input, or one row per token, in the
buffer. -/
def env : Env Bool (List Bool) :=
  { gpt_params_default := params
    gpt_params_parse := fun args p => if args.length ≤ 1 then some p else none
    time := 1700000000
    gpt_random_prompt := fun _ => []
    llama_init_from_file := fun _ lp =>
      if 0 ≤ lp.part.1 ∧ lp.part.1 < lp.part.2 ∧ lp.part.2 ≤ 4 then some [] else none
    llama_n_embd := fun _ => 2
    llama_n_layer := fun _ => 4
    llama_tokenize := fun _ s _ => 1 :: s.map (fun c => (c.toNat : Int))
    llama_eval := fun _ inp _ _ =>
      match inp.embd, inp.tokens with
      | some h, _ => (0, h)
      | none, some ts => (0, ts.flatMap (fun t => [decide (t % 2 = 1), false]))
      | none, none => (1, [])
    llama_sample_top_p_top_k := fun _ w _ _ _ _ _ => (w.length : Int)
    llama_token_to_str := fun _ _ => [Char.ofNat 116]
    llama_get_embeddings := fun buf idx => buf.getD idx.toNat false
    printf_f := printf_f
    stof := stof }

/-- The command line of a middle stage over layers 1 to 2. -/
def argv_middle : List (List Char) := ["partial".toList, "1".toList, "2".toList]

/-- The parameters with which the stand-in model is loaded. -/
def loaded_params : gpt_params Bool :=
  { params with model := "models/llama-7B/ggml-model.bin".toList, embedding := true }

/-- A command line whose first positional argument is not an integer. -/
def argv_not_integer : List (List Char) := ["partial".toList, "abc".toList, "2".toList]

/-- The layer count of every model file of the stand-in. -/
def layer_count (_ : List Char) : Option Int := some 32

/-- Every output path of the stand-in can be written. -/
def writable (_ : List Char) : Bool := true

/-- The command line of the split CLI for the range from 5 to 3. -/
def argv_split_invalid : List (List Char) :=
  ["model-splitter".toList, "5".toList, "3".toList, "in.bin".toList, "out.bin".toList]

/-- One row of two values on standard input. -/
def one_row : List Char := "1 0\n".toList

/-- Three values on standard input, the second line one value short. -/
def short_row : List Char := "1 0\n1\n".toList

/-- Two rows on standard input with a blank line between them. -/
def blank_between : List Char := "1 0\n\n0 1\n".toList

end Toy

/-! ## The line reader -/

namespace Cxx

theorem getlines_of_none (delim : Char) (s : List Char) (h : getline delim s = none) :
    getlines delim s = [] := by
  rw [getlines]
  split
  · rfl
  · rename_i l r hg
    rw [h] at hg
    cases hg

theorem getlines_of_some (delim : Char) (s l r : List Char)
    (h : getline delim s = some (l, r)) :
    getlines delim s = l :: getlines delim r := by
  rw [getlines]
  split
  · rename_i hg
    rw [h] at hg
    cases hg
  · rename_i l1 r1 hg
    rw [h] at hg
    cases hg
    rfl

@[simp] theorem getlines_nil (delim : Char) : getlines delim [] = [] :=
  getlines_of_none delim [] rfl

theorem getlines_cons_delim (delim : Char) (cs : List Char) :
    getlines delim (delim :: cs) = [] :: getlines delim cs :=
  getlines_of_some delim _ _ _ (by simp [getline])

theorem getlines_cons_other (delim c : Char) (cs : List Char) (hc : c ≠ delim) :
    getlines delim (c :: cs) =
      match getlines delim cs with
      | [] => [[c]]
      | l :: ls => (c :: l) :: ls := by
  cases hg : getline delim cs with
  | none =>
    rw [getlines_of_none delim cs hg,
      getlines_of_some delim (c :: cs) [c] [] (by simp [getline, hc, hg])]
    simp
  | some p =>
    obtain ⟨l, r⟩ := p
    rw [getlines_of_some delim cs l r hg,
      getlines_of_some delim (c :: cs) (c :: l) r (by simp [getline, hc, hg])]

/-- The equation by which `getlines` is evaluated on a concrete text. -/
theorem getlines_cons (delim c : Char) (cs : List Char) :
    getlines delim (c :: cs) =
      if c = delim then [] :: getlines delim cs
      else
        match getlines delim cs with
        | [] => [[c]]
        | l :: ls => (c :: l) :: ls := by
  by_cases hc : c = delim
  · subst hc
    simp [getlines_cons_delim]
  · simp only [hc, if_false]
    exact getlines_cons_other delim c cs hc

theorem getlines_ne_nil (delim c : Char) (cs : List Char) : getlines delim (c :: cs) ≠ [] := by
  rw [getlines_cons]
  split
  · simp
  · split <;> simp

/-- A line that is closed by its delimiter is read as one line, whatever
follows. -/
theorem getlines_line (delim : Char) (rest : List Char) :
    ∀ l : List Char, delim ∉ l →
      getlines delim (l ++ delim :: rest) = l :: getlines delim rest
  | [], _ => by simp [getlines_cons_delim]
  | c :: l, h => by
    have hc : c ≠ delim := fun e => h (by simp [e])
    have hl : delim ∉ l := fun e => h (by simp [e])
    rw [List.cons_append, getlines_cons_other delim c _ hc, getlines_line delim rest l hl]

/-- A last line with no delimiter after it is read as one line. -/
theorem getlines_last (delim : Char) :
    ∀ l : List Char, delim ∉ l → l ≠ [] → getlines delim l = [l]
  | [], _, h => absurd rfl h
  | [c], h, _ => by
    have hc : c ≠ delim := fun e => h (by simp [e])
    rw [getlines_cons_other delim c _ hc]
    simp
  | c :: d :: l, h, _ => by
    have hc : c ≠ delim := fun e => h (by simp [e])
    have hl : delim ∉ d :: l := fun e => h (List.mem_cons_of_mem c e)
    rw [getlines_cons_other delim c _ hc, getlines_last delim (d :: l) hl (by simp)]

/-- Reading a text that is cut by a delimiter: the lines of the part before
the cut, closed, then the lines of the part after it. -/
theorem getlines_append (delim : Char) (b : List Char) :
    ∀ a : List Char,
      getlines delim (a ++ delim :: b) = getlines delim (a ++ [delim]) ++ getlines delim b
  | [] => by simp [getlines_cons_delim]
  | c :: a => by
    by_cases hc : c = delim
    · subst hc
      simp only [List.cons_append, getlines_cons_delim, getlines_append c b a]
    · rw [List.cons_append, List.cons_append, getlines_cons_other delim c _ hc,
        getlines_cons_other delim c _ hc, getlines_append delim b a]
      cases hq : getlines delim (a ++ [delim]) with
      | nil =>
        cases a with
        | nil => simp [getlines_cons_delim] at hq
        | cons x xs => exact absurd hq (getlines_ne_nil delim x (xs ++ [delim]))
      | cons l ls => simp

/-- A delimiter at the very end of a text closes the last line and adds at
most one empty line. -/
theorem getlines_closed (delim : Char) :
    ∀ a : List Char,
      getlines delim (a ++ [delim]) = getlines delim a ∨
        getlines delim (a ++ [delim]) = getlines delim a ++ [[]]
  | [] => by simp [getlines_cons_delim]
  | c :: a => by
    by_cases hc : c = delim
    · subst hc
      simp only [List.cons_append, getlines_cons_delim]
      rcases getlines_closed c a with h | h
      · exact Or.inl (by rw [h])
      · exact Or.inr (by rw [h])
    · rw [List.cons_append, getlines_cons_other delim c _ hc, getlines_cons_other delim c _ hc]
      cases a with
      | nil => simp [getlines_cons_delim]
      | cons x xs =>
        cases hq : getlines delim (x :: xs) with
        | nil => exact absurd hq (getlines_ne_nil delim x xs)
        | cons l ls =>
          rcases getlines_closed delim (x :: xs) with h | h
          · rw [h, hq]; simp
          · rw [h, hq]; simp

end Cxx


/-! ## The stage driver -/

namespace StageDriver
open Cxx

/-- Once the positional arguments and the parameters are parsed and the model
is loaded, `main` is the rest of the run. -/
theorem main_loaded {F Ctx : Type} (env : Env F Ctx) (argv : List (List Char))
    (stdin a1 a2 : List Char) (first_layer last_layer : Int) (parsed : gpt_params F) (ctx : Ctx)
    (h1 : argv[1]? = some a1) (hf : stoi a1 = Except.ok first_layer)
    (h2 : argv[2]? = some a2) (hl : stoi a2 = Except.ok last_layer)
    (hp : env.gpt_params_parse (argv.drop 2)
      { env.gpt_params_default with model := "models/llama-7B/ggml-model.bin".toList }
        = some parsed)
    (hc : env.llama_init_from_file (prepare_params env parsed).model
      (make_lparams (prepare_params env parsed) first_layer last_layer) = some ctx) :
    main env argv stdin
      = run_loaded env (prepare_params env parsed) ctx first_layer last_layer stdin := by
  simp only [main, h1, hf, h2, hl, hp, hc]

theorem has_tokens_as_input_iff (first_layer : Int) :
    has_tokens_as_input first_layer = true ↔ first_layer = 0 := by
  simp [has_tokens_as_input]

theorem has_tokens_as_output_iff (last_layer n_layer : Int) :
    has_tokens_as_output last_layer n_layer = true ↔ last_layer = n_layer := by
  simp [has_tokens_as_output]

theorem int_cast_of_lt (n : Nat) (h : n < 2 ^ 31) : int_cast n = (n : Int) := by
  unfold int_cast
  have h2 : (n : Int) < 2 ^ 31 := by exact_mod_cast h
  have h3 : (0 : Int) ≤ (n : Int) := Int.ofNat_nonneg n
  rw [Int.emod_eq_of_lt (by omega) (by omega)]
  omega

/-- The text the output step writes when the stage is not terminal. -/
theorem write_output_hidden {F Ctx : Type} (env : Env F Ctx) (params : gpt_params F) (ctx : Ctx)
    (last_layer n_layer n_embd : Int) (embd_inp : List Int) (evals : List (eval_call F))
    (h : has_tokens_as_output last_layer n_layer = false) :
    write_output env params ctx last_layer n_layer n_embd embd_inp evals =
      ⟨Outcome.returned 0, evals, [],
        print_embeddings env.printf_f (env.llama_get_embeddings ctx) (env.llama_n_embd ctx)
          n_embd embd_inp.length⟩ := by
  simp [write_output, h]

theorem write_output_evals {F Ctx : Type} (env : Env F Ctx) (params : gpt_params F) (ctx : Ctx)
    (last_layer n_layer n_embd : Int) (embd_inp : List Int) (evals : List (eval_call F)) :
    (write_output env params ctx last_layer n_layer n_embd embd_inp evals).evals = evals := by
  unfold write_output
  split
  · split
    · rfl
    · split <;> rfl
  · rfl

theorem print_embeddings_zero {F : Type} (printf_f : F → List Char) (embeddings : Int → F)
    (stride n_embd : Int) : print_embeddings printf_f embeddings stride n_embd 0 = [] := by
  simp [print_embeddings]

/-- C1.  On a stage that is neither first nor terminal, the output step
prints no line at all, whatever the number `T` of positions read from
standard input and evaluated: the loop runs over `embd_inp`, which holds the
prompt tokens and is empty when the input is a hidden state. -/
theorem hidden_input_prints_no_line {F Ctx : Type} (env : Env F Ctx) (params : gpt_params F)
    (ctx : Ctx) (first_layer last_layer : Int) (stdin : List Char)
    (hfirst : first_layer ≠ 0) (hlast : last_layer ≠ env.llama_n_layer ctx) :
    (run_loaded env params ctx first_layer last_layer stdin).out = [] := by
  have hin : has_tokens_as_input first_layer = false := by
    simpa [has_tokens_as_input] using hfirst
  have hout : has_tokens_as_output last_layer (env.llama_n_layer ctx) = false := by
    simpa [has_tokens_as_output] using hlast
  unfold run_loaded
  simp only [hin, Bool.false_eq_true, if_false]
  cases read_embd env.stof stdin with
  | error e => rfl
  | ok embd =>
    simp only [eval_and_output, hin, Bool.false_eq_true, if_false]
    split
    · rfl
    · split
      · rfl
      · simp [write_output_hidden _ _ _ _ _ _ _ _ hout, print_embeddings_zero]

theorem tdiv_natCast (n : Nat) (d : Int) (h : 0 < d) :
    (n : Int).tdiv d = ((n / d.toNat : Nat) : Int) := by
  obtain ⟨m, rfl⟩ := Int.eq_ofNat_of_zero_le (le_of_lt h)
  rw [Int.tdiv_eq_ediv (Int.ofNat_nonneg n) (Int.ofNat_nonneg m)]
  simp

/-- The run of a first stage: the prompt is tokenized, evaluated, and the
output step follows when the evaluation returns 0. -/
theorem run_loaded_tokens {F Ctx : Type} (env : Env F Ctx) (params : gpt_params F) (ctx : Ctx)
    (first_layer last_layer : Int) (stdin : List Char) (hfirst : first_layer = 0) :
    run_loaded env params ctx first_layer last_layer stdin =
      if (env.llama_eval ctx
          (tokens_input (env.llama_tokenize ctx (SPACE :: params.prompt) true)) 0
          params.n_threads).1 ≠ 0 then
        ⟨Outcome.returned 1,
          [⟨tokens_input (env.llama_tokenize ctx (SPACE :: params.prompt) true), 0,
            params.n_threads⟩], [], []⟩
      else
        write_output env { params with prompt := SPACE :: params.prompt }
          (env.llama_eval ctx
            (tokens_input (env.llama_tokenize ctx (SPACE :: params.prompt) true)) 0
            params.n_threads).2
          last_layer (env.llama_n_layer ctx) (env.llama_n_embd ctx)
          (env.llama_tokenize ctx (SPACE :: params.prompt) true)
          [⟨tokens_input (env.llama_tokenize ctx (SPACE :: params.prompt) true), 0,
            params.n_threads⟩] := by
  have hin : has_tokens_as_input first_layer = true := by simp [has_tokens_as_input, hfirst]
  simp only [run_loaded, eval_and_output, hin, if_true]

/-- The run of a later stage on a standard input whose values all parse. -/
theorem run_loaded_hidden {F Ctx : Type} (env : Env F Ctx) (params : gpt_params F) (ctx : Ctx)
    (first_layer last_layer : Int) (stdin : List Char) (embd : List F)
    (hfirst : first_layer ≠ 0) (hread : read_embd env.stof stdin = Except.ok embd)
    (hdiv : ¬ (env.llama_n_embd ctx = 0 ∨
      (int_cast embd.length = -(2 ^ 31) ∧ env.llama_n_embd ctx = -1))) :
    run_loaded env params ctx first_layer last_layer stdin =
      if (env.llama_eval ctx (hidden_input embd (env.llama_n_embd ctx)) 0 params.n_threads).1 ≠ 0
      then
        ⟨Outcome.returned 1, [⟨hidden_input embd (env.llama_n_embd ctx), 0, params.n_threads⟩],
          [], []⟩
      else
        write_output env params
          (env.llama_eval ctx (hidden_input embd (env.llama_n_embd ctx)) 0 params.n_threads).2
          last_layer (env.llama_n_layer ctx) (env.llama_n_embd ctx) []
          [⟨hidden_input embd (env.llama_n_embd ctx), 0, params.n_threads⟩] := by
  have hin : has_tokens_as_input first_layer = false := by
    simpa [has_tokens_as_input] using hfirst
  simp only [run_loaded, eval_and_output, hin, hread, Bool.false_eq_true, if_false, hdiv]

/-- Every run of the loaded driver has one of three shapes: it ends before
the evaluation (only on a hidden-state input: a value that does not parse, or
a division by a zero width); or it makes one call of `llama_eval` that fails
and returns 1; or it makes one call that succeeds and goes on to the output
step. -/
theorem run_loaded_shape {F Ctx : Type} (env : Env F Ctx) (params : gpt_params F) (ctx : Ctx)
    (first_layer last_layer : Int) (stdin : List Char) :
    (first_layer ≠ 0 ∧
      ((∃ e, read_embd env.stof stdin = Except.error e ∧
          run_loaded env params ctx first_layer last_layer stdin
            = Run.stop (Outcome.terminated e)) ∨
        run_loaded env params ctx first_layer last_layer stdin = Run.stop Outcome.undefined)) ∨
    (∃ call : eval_call F,
      call.n_past = 0 ∧ call.n_threads = params.n_threads ∧
      ((first_layer = 0 ∧
          call.input = tokens_input (env.llama_tokenize ctx (SPACE :: params.prompt) true)) ∨
        (first_layer ≠ 0 ∧ ∃ embd, read_embd env.stof stdin = Except.ok embd ∧
          call.input = hidden_input embd (env.llama_n_embd ctx))) ∧
      (((env.llama_eval ctx call.input call.n_past call.n_threads).1 ≠ 0 ∧
          run_loaded env params ctx first_layer last_layer stdin
            = ⟨Outcome.returned 1, [call], [], []⟩) ∨
        ((env.llama_eval ctx call.input call.n_past call.n_threads).1 = 0 ∧
          ∃ (params1 : gpt_params F) (embd_inp : List Int),
            params1.repeat_last_n = params.repeat_last_n ∧
            (first_layer ≠ 0 → embd_inp = []) ∧
            (first_layer = 0 →
              embd_inp = env.llama_tokenize ctx (SPACE :: params.prompt) true) ∧
            run_loaded env params ctx first_layer last_layer stdin
              = write_output env params1
                  (env.llama_eval ctx call.input call.n_past call.n_threads).2
                  last_layer (env.llama_n_layer ctx) (env.llama_n_embd ctx) embd_inp [call]))) := by
  by_cases hfirst : first_layer = 0
  · right
    refine ⟨⟨tokens_input (env.llama_tokenize ctx (SPACE :: params.prompt) true), 0,
      params.n_threads⟩, rfl, rfl, Or.inl ⟨hfirst, rfl⟩, ?_⟩
    rw [run_loaded_tokens env params ctx first_layer last_layer stdin hfirst]
    by_cases hret : (env.llama_eval ctx
        (tokens_input (env.llama_tokenize ctx (SPACE :: params.prompt) true)) 0
        params.n_threads).1 = 0
    · right
      refine ⟨hret, { params with prompt := SPACE :: params.prompt }, _, rfl,
        fun h => absurd hfirst h, fun _ => rfl, ?_⟩
      simp only [hret, ne_eq, not_true_eq_false, if_false]
    · left
      refine ⟨hret, ?_⟩
      simp only [hret, ne_eq, not_false_eq_true, if_true]
  · cases hread : read_embd env.stof stdin with
    | error e =>
      left
      refine ⟨hfirst, Or.inl ⟨e, rfl, ?_⟩⟩
      have hin : has_tokens_as_input first_layer = false := by
        simpa [has_tokens_as_input] using hfirst
      simp only [run_loaded, hin, hread, Bool.false_eq_true, if_false]
    | ok embd =>
      by_cases hdiv : env.llama_n_embd ctx = 0 ∨
          (int_cast embd.length = -(2 ^ 31) ∧ env.llama_n_embd ctx = -1)
      · left
        refine ⟨hfirst, Or.inr ?_⟩
        have hin : has_tokens_as_input first_layer = false := by
          simpa [has_tokens_as_input] using hfirst
        simp only [run_loaded, eval_and_output, hin, hread, Bool.false_eq_true, if_false, hdiv,
          if_true]
      · right
        refine ⟨⟨hidden_input embd (env.llama_n_embd ctx), 0, params.n_threads⟩, rfl, rfl,
          Or.inr ⟨hfirst, embd, rfl, rfl⟩, ?_⟩
        rw [run_loaded_hidden env params ctx first_layer last_layer stdin embd hfirst hread hdiv]
        by_cases hret : (env.llama_eval ctx (hidden_input embd (env.llama_n_embd ctx)) 0
            params.n_threads).1 = 0
        · right
          refine ⟨hret, params, [], rfl, fun _ => rfl, fun h => absurd h hfirst, ?_⟩
          simp only [hret, ne_eq, not_true_eq_false, if_false]
        · left
          refine ⟨hret, ?_⟩
          simp only [hret, ne_eq, not_false_eq_true, if_true]

/-- The output step of a terminal stage with a positive `repeat_last_n`. -/
theorem write_output_terminal {F Ctx : Type} (env : Env F Ctx) (params : gpt_params F)
    (ctx : Ctx) (last_layer n_layer n_embd : Int) (embd_inp : List Int)
    (evals : List (eval_call F)) (h : has_tokens_as_output last_layer n_layer = true)
    (hn : 0 < params.repeat_last_n) :
    write_output env params ctx last_layer n_layer n_embd embd_inp evals =
      ⟨Outcome.returned 0, evals,
        [⟨List.replicate params.repeat_last_n.toNat 0, -1, params.repeat_last_n⟩],
        env.llama_token_to_str ctx
          (env.llama_sample_top_p_top_k ctx
            (window (List.replicate params.repeat_last_n.toNat 0) (-1) params.repeat_last_n)
            params.repeat_last_n params.top_k params.top_p params.temp params.repeat_penalty)
          ++ [NEWLINE]⟩ := by
  have h1 : ¬ params.repeat_last_n < 0 := by omega
  have h2 : ¬ params.repeat_last_n = 0 := by omega
  have h3 : ((List.replicate params.repeat_last_n.toNat (0 : Int)).length : Int) - 1
      - params.repeat_last_n = -1 := by
    rw [List.length_replicate, Int.toNat_of_nonneg (le_of_lt hn)]
    omega
  simp only [write_output, h, if_true, h1, h2, if_false, h3]

theorem intercalate_cons_cons (sep x y : List Char) (l : List (List Char)) :
    List.intercalate sep (x :: y :: l) = x ++ sep ++ List.intercalate sep (y :: l) := by
  simp [List.intercalate, List.intersperse]

theorem intercalate_single (sep x : List Char) : List.intercalate sep [x] = x := by
  simp [List.intercalate, List.intersperse]

/-- The inner output loop writes its pieces with one space between two
neighbours and none after the last. -/
theorem row_text_eq (g : Nat → List Char) :
    ∀ (n s : Nat),
      (List.range' s n).flatMap (fun i => g i ++ if i + 1 < s + n then [SPACE] else [])
        = List.intercalate [SPACE] ((List.range' s n).map g)
  | 0, s => by simp [List.intercalate]
  | 1, s => by simp [List.range', intercalate_single]
  | n + 2, s => by
    have ih := row_text_eq g (n + 1) (s + 1)
    have hcond : (fun i => g i ++ if i + 1 < s + (n + 2) then [SPACE] else [])
        = (fun i => g i ++ if i + 1 < s + 1 + (n + 1) then [SPACE] else []) := by
      funext i
      have : (i + 1 < s + (n + 2)) ↔ (i + 1 < s + 1 + (n + 1)) := by omega
      simp only [this]
    rw [List.range'_succ, List.flatMap_cons, hcond, ih, List.map_cons, List.range'_succ,
      List.map_cons, intercalate_cons_cons]
    have : s + 1 < s + 1 + (n + 1) := by omega
    simp [this]

/-- One output line: the formatted values of the row, one space between two
neighbours, then the newline. -/
theorem print_row_eq {F : Type} (printf_f : F → List Char) (embeddings : Int → F)
    (stride n_embd : Int) (j : Nat) :
    print_row printf_f embeddings stride n_embd j =
      List.intercalate [SPACE] ((List.range n_embd.toNat).map fun (i : Nat) =>
        printf_f (embeddings ((j : Int) * stride + (i : Int)))) ++ [NEWLINE] := by
  unfold print_row
  congr 1
  rw [List.range_eq_range', ← row_text_eq]
  apply List.flatMap_congr
  intro i hi
  have hi2 : i < n_embd.toNat := by simpa [List.mem_range'_1] using hi
  have : ((i : Int) < n_embd - 1) ↔ (i + 1 < 0 + n_embd.toNat) := by omega
  simp only [this]

/-- The output loop writes the wire format of the matrix in the buffer. -/
theorem print_embeddings_eq_wire {F : Type} (printf_f : F → List Char) (embeddings : Int → F)
    (D : Int) (rows : Nat) :
    print_embeddings printf_f embeddings D D rows
      = wire_batch printf_f (matrix_rows embeddings D rows) := by
  unfold print_embeddings wire_batch matrix_rows wire_row
  rw [List.flatMap_def, List.map_map]
  congr 1
  apply List.map_congr_left
  intro j _
  simp only [Function.comp_def, print_row_eq, List.map_map]

end StageDriver

/-! ## Evaluating the stand-in library -/

namespace Toy
open Cxx StageDriver

theorem read_one_row : read_embd env.stof one_row = Except.ok [true, false] := by
  simp [read_embd, read_segments, getlines_cons, NEWLINE, SPACE, push_back_all, stof, env,
    one_row]

theorem read_short_row : read_embd env.stof short_row = Except.ok [true, false, true] := by
  simp [read_embd, read_segments, getlines_cons, NEWLINE, SPACE, push_back_all, stof, env,
    short_row]

theorem read_blank_between :
    read_embd env.stof blank_between = Except.ok [true, false, false, true] := by
  simp [read_embd, read_segments, getlines_cons, NEWLINE, SPACE, push_back_all, stof, env,
    blank_between]

theorem main_middle (stdin : List Char) :
    main env argv_middle stdin = run_loaded env loaded_params [] 1 2 stdin :=
  main_loaded env argv_middle stdin "1".toList "2".toList 1 2
    { params with model := "models/llama-7B/ggml-model.bin".toList } []
    rfl (by decide) rfl (by decide) rfl (by decide)

theorem read_nothing : read_embd env.stof [] = Except.ok [] := by
  simp [read_embd, read_segments, push_back_all]

theorem run_middle (stdin : List Char) (embd : List Bool)
    (h : read_embd env.stof stdin = Except.ok embd) (hne : embd ≠ [])
    (hlen : embd.length < 2 ^ 31) :
    run_loaded env loaded_params [] 1 2 stdin =
      ⟨Outcome.returned 0, [⟨⟨none, some embd, ((embd.length / 2 : Nat) : Int), 2⟩, 0, 4⟩],
        [], []⟩ := by
  have hdiv : ¬ (env.llama_n_embd [] = 0 ∨
      (int_cast embd.length = -(2 ^ 31) ∧ env.llama_n_embd [] = -1)) := by
    simp [env]
  rw [run_loaded_hidden env loaded_params [] 1 2 stdin embd (by decide) h hdiv]
  have hT : (int_cast embd.length).tdiv 2 = ((embd.length / 2 : Nat) : Int) := by
    rw [int_cast_of_lt _ hlen]
    exact tdiv_natCast embd.length 2 (by decide)
  obtain ⟨x, xs, rfl⟩ := List.exists_cons_of_ne_nil hne
  simp [env, hidden_input, vector_data, write_output, has_tokens_as_output, print_embeddings,
    hT, loaded_params, params] at hT ⊢
  exact hT

theorem run_middle_nothing :
    run_loaded env loaded_params [] 1 2 [] =
      ⟨Outcome.returned 1, [⟨⟨none, none, 0, 2⟩, 0, 4⟩], [], []⟩ := by
  rw [run_loaded_hidden env loaded_params [] 1 2 [] [] (by decide) read_nothing
    (by simp [env])]
  simp [env, hidden_input, vector_data, int_cast, loaded_params, params]

end Toy

/-! ## The claims on the evaluation call and the flags -/

namespace StageDriver
open Cxx

theorem hidden_input_prints_no_line_witness :
    (1 : Int) ≠ 0 ∧ (2 : Int) ≠ Toy.env.llama_n_layer [] ∧
      read_embd Toy.env.stof Toy.one_row = Except.ok [true, false] ∧
      (run_loaded Toy.env Toy.loaded_params [] 1 2 Toy.one_row).evals
        = [⟨⟨none, some [true, false], 1, 2⟩, 0, 4⟩] ∧
      (run_loaded Toy.env Toy.loaded_params [] 1 2 Toy.one_row).outcome = Outcome.returned 0 ∧
      (run_loaded Toy.env Toy.loaded_params [] 1 2 Toy.one_row).out = [] :=
  ⟨by decide, by decide, Toy.read_one_row,
    by rw [Toy.run_middle Toy.one_row _ Toy.read_one_row (by decide) (by decide)]; rfl,
    by rw [Toy.run_middle Toy.one_row _ Toy.read_one_row (by decide) (by decide)],
    hidden_input_prints_no_line Toy.env Toy.loaded_params [] 1 2 Toy.one_row
      (by decide) (by decide)⟩

/-- C2, as the claim states it, fails: on a middle stage of width 2 whose
standard input holds 3 values (a line of 2, then a line of 1), the driver
calls `llama_eval` with `T = 1` and, the evaluation returning 0, exits with
status 0. -/
theorem indivisible_count_is_evaluated :
    read_embd Toy.env.stof Toy.short_row = Except.ok [true, false, true] ∧
      [true, false, true].length % 2 ≠ 0 ∧
      (main Toy.env Toy.argv_middle Toy.short_row).evals
        = [⟨⟨none, some [true, false, true], 1, 2⟩, 0, 4⟩] ∧
      (main Toy.env Toy.argv_middle Toy.short_row).outcome = Outcome.returned 0 := by
  refine ⟨Toy.read_short_row, by decide, ?_, ?_⟩
  · rw [Toy.main_middle, Toy.run_middle Toy.short_row _ Toy.read_short_row (by decide) (by decide)]
    rfl
  · rw [Toy.main_middle, Toy.run_middle Toy.short_row _ Toy.read_short_row (by decide) (by decide)]

/-- C2, amended.  On a stage with `first != 0` the driver makes no
divisibility check: whenever the values on standard input all parse (their
number `count` below `2^31`, the width `D = n_embd` positive), it calls
`llama_eval` once, with a null token pointer, the hidden pointer
`embd.data()` (null when `count = 0`), `T = count / D` rounded down and the
width `D`, for every `count`; its exit status is 1 when that call returns
non-zero, and 0 when the call returns 0 on a stage that is not terminal. -/
theorem hidden_input_evaluated_for_every_count {F Ctx : Type} (env : Env F Ctx)
    (params : gpt_params F) (ctx : Ctx) (first_layer last_layer : Int) (stdin : List Char)
    (embd : List F) (hfirst : first_layer ≠ 0)
    (hread : read_embd env.stof stdin = Except.ok embd)
    (hlen : embd.length < 2 ^ 31) (hD : 0 < env.llama_n_embd ctx) :
    (run_loaded env params ctx first_layer last_layer stdin).evals
        = [⟨⟨none, vector_data embd,
            ((embd.length / (env.llama_n_embd ctx).toNat : Nat) : Int),
            env.llama_n_embd ctx⟩, 0, params.n_threads⟩] ∧
      (embd ≠ [] → vector_data embd = some embd) ∧
      ((env.llama_eval ctx (hidden_input embd (env.llama_n_embd ctx)) 0 params.n_threads).1 ≠ 0 →
        (run_loaded env params ctx first_layer last_layer stdin).outcome
          = Outcome.returned 1) ∧
      ((env.llama_eval ctx (hidden_input embd (env.llama_n_embd ctx)) 0 params.n_threads).1 = 0 →
        last_layer ≠ env.llama_n_layer ctx →
        (run_loaded env params ctx first_layer last_layer stdin).outcome
          = Outcome.returned 0) := by
  have hdiv : ¬ (env.llama_n_embd ctx = 0 ∨
      (int_cast embd.length = -(2 ^ 31) ∧ env.llama_n_embd ctx = -1)) := by omega
  have hT : (int_cast embd.length).tdiv (env.llama_n_embd ctx)
      = ((embd.length / (env.llama_n_embd ctx).toNat : Nat) : Int) := by
    rw [int_cast_of_lt _ hlen]
    exact tdiv_natCast embd.length _ hD
  have hcall : (hidden_input embd (env.llama_n_embd ctx) : llama_eval_input F)
      = ⟨none, vector_data embd, ((embd.length / (env.llama_n_embd ctx).toNat : Nat) : Int),
          env.llama_n_embd ctx⟩ := by
    simp only [hidden_input, hT]
  rw [run_loaded_hidden env params ctx first_layer last_layer stdin embd hfirst hread hdiv]
  refine ⟨?_, ?_, ?_, ?_⟩
  · split
    · rw [hcall]
    · rw [write_output_evals, hcall]
  · intro hne
    obtain ⟨x, xs, rfl⟩ := List.exists_cons_of_ne_nil hne
    rfl
  · intro hret
    simp only [hret, ne_eq, not_false_eq_true, if_true]
  · intro hret hlast
    have hout : has_tokens_as_output last_layer (env.llama_n_layer ctx) = false := by
      simpa [has_tokens_as_output] using hlast
    simp only [hret, ne_eq, not_true_eq_false, if_false,
      write_output_hidden _ _ _ _ _ _ _ _ hout]

theorem hidden_input_evaluated_for_every_count_witness :
    (1 : Int) ≠ 0 ∧ read_embd Toy.env.stof Toy.short_row = Except.ok [true, false, true] ∧
      [true, false, true].length < 2 ^ 31 ∧ 0 < Toy.env.llama_n_embd [] ∧
      (run_loaded Toy.env Toy.loaded_params [] 1 2 Toy.short_row).evals
        = [⟨⟨none, vector_data [true, false, true],
            (([true, false, true].length / (Toy.env.llama_n_embd []).toNat : Nat) : Int),
            Toy.env.llama_n_embd []⟩, 0, Toy.loaded_params.n_threads⟩] ∧
      vector_data [true, false, true] = some [true, false, true] :=
  ⟨by decide, Toy.read_short_row, by decide, by decide,
    (hidden_input_evaluated_for_every_count Toy.env Toy.loaded_params [] 1 2 Toy.short_row
      [true, false, true] (by decide) Toy.read_short_row (by decide) (by decide)).1,
    rfl⟩

theorem run_loaded_prompt {F Ctx : Type} (env : Env F Ctx) (params : gpt_params F) (ctx : Ctx)
    (first_layer last_layer : Int) (stdin prompt : List Char) (hfirst : first_layer ≠ 0) :
    run_loaded env { params with prompt := prompt } ctx first_layer last_layer stdin
      = run_loaded env params ctx first_layer last_layer stdin := by
  have hin : has_tokens_as_input first_layer = false := by
    simpa [has_tokens_as_input] using hfirst
  simp only [run_loaded, hin, Bool.false_eq_true, if_false]
  cases read_embd env.stof stdin with
  | error e => rfl
  | ok embd =>
    simp only [eval_and_output, hin, Bool.false_eq_true, if_false]
    rfl

/-- C3.  The flag `has_tokens_as_input` holds exactly when `first = 0` and
the flag `has_tokens_as_output` exactly when `last = N`, the layer count that
the loaded slab reports, and the two flags fix the whole run.

With `first = 0` standard input is not read (the run is the same on every
standard input); the prompt is tokenized and evaluated as tokens.  With
`first ≠ 0` the prompt is not read (the run is the same for every prompt);
the values of standard input are read and evaluated as a hidden state, and a
value that does not parse ends the run.

When the evaluation returns 0: with `last ≠ N` the sampler is not called and
the output is that of the hidden-state loop, which runs over the prompt
tokens (one row per token on a first stage, the wire format of the buffer;
no row at all when `first ≠ 0`); with `last = N` (and `repeat_last_n ≥ 1`)
the sampler is called once and the output is the text of the sampled token
and a newline.  When the evaluation does not return 0 the run returns 1 and
writes nothing. -/
theorem flags_select_input_and_output {F Ctx : Type} (env : Env F Ctx) (params : gpt_params F)
    (ctx : Ctx) (first_layer last_layer : Int) (stdin : List Char) :
    (has_tokens_as_input first_layer = true ↔ first_layer = 0) ∧
    (has_tokens_as_output last_layer (env.llama_n_layer ctx) = true
      ↔ last_layer = env.llama_n_layer ctx) ∧
    (first_layer = 0 →
      (∀ other : List Char,
        run_loaded env params ctx first_layer last_layer stdin
          = run_loaded env params ctx first_layer last_layer other) ∧
      ((env.llama_eval ctx
          (tokens_input (env.llama_tokenize ctx (SPACE :: params.prompt) true)) 0
          params.n_threads).1 ≠ 0 →
        run_loaded env params ctx first_layer last_layer stdin
          = ⟨Outcome.returned 1,
              [⟨tokens_input (env.llama_tokenize ctx (SPACE :: params.prompt) true), 0,
                params.n_threads⟩], [], []⟩) ∧
      ((env.llama_eval ctx
          (tokens_input (env.llama_tokenize ctx (SPACE :: params.prompt) true)) 0
          params.n_threads).1 = 0 →
        last_layer ≠ env.llama_n_layer ctx →
        run_loaded env params ctx first_layer last_layer stdin
          = ⟨Outcome.returned 0,
              [⟨tokens_input (env.llama_tokenize ctx (SPACE :: params.prompt) true), 0,
                params.n_threads⟩], [],
              print_embeddings env.printf_f
                (env.llama_get_embeddings (env.llama_eval ctx
                  (tokens_input (env.llama_tokenize ctx (SPACE :: params.prompt) true)) 0
                  params.n_threads).2)
                (env.llama_n_embd (env.llama_eval ctx
                  (tokens_input (env.llama_tokenize ctx (SPACE :: params.prompt) true)) 0
                  params.n_threads).2)
                (env.llama_n_embd ctx)
                (env.llama_tokenize ctx (SPACE :: params.prompt) true).length⟩ ∧
        (env.llama_n_embd (env.llama_eval ctx
            (tokens_input (env.llama_tokenize ctx (SPACE :: params.prompt) true)) 0
            params.n_threads).2 = env.llama_n_embd ctx →
          (run_loaded env params ctx first_layer last_layer stdin).out
            = wire_batch env.printf_f
                (matrix_rows
                  (env.llama_get_embeddings (env.llama_eval ctx
                    (tokens_input (env.llama_tokenize ctx (SPACE :: params.prompt) true)) 0
                    params.n_threads).2)
                  (env.llama_n_embd ctx)
                  (env.llama_tokenize ctx (SPACE :: params.prompt) true).length))) ∧
      ((env.llama_eval ctx
          (tokens_input (env.llama_tokenize ctx (SPACE :: params.prompt) true)) 0
          params.n_threads).1 = 0 →
        last_layer = env.llama_n_layer ctx → 0 < params.repeat_last_n →
        run_loaded env params ctx first_layer last_layer stdin
          = ⟨Outcome.returned 0,
              [⟨tokens_input (env.llama_tokenize ctx (SPACE :: params.prompt) true), 0,
                params.n_threads⟩],
              [⟨List.replicate params.repeat_last_n.toNat 0, -1, params.repeat_last_n⟩],
              env.llama_token_to_str
                (env.llama_eval ctx
                  (tokens_input (env.llama_tokenize ctx (SPACE :: params.prompt) true)) 0
                  params.n_threads).2
                (env.llama_sample_top_p_top_k
                  (env.llama_eval ctx
                    (tokens_input (env.llama_tokenize ctx (SPACE :: params.prompt) true)) 0
                    params.n_threads).2
                  (window (List.replicate params.repeat_last_n.toNat 0) (-1)
                    params.repeat_last_n)
                  params.repeat_last_n params.top_k params.top_p params.temp
                  params.repeat_penalty)
                ++ [NEWLINE]⟩)) ∧
    (first_layer ≠ 0 →
      (∀ prompt : List Char,
        run_loaded env { params with prompt := prompt } ctx first_layer last_layer stdin
          = run_loaded env params ctx first_layer last_layer stdin) ∧
      (∀ e, read_embd env.stof stdin = Except.error e →
        run_loaded env params ctx first_layer last_layer stdin
          = Run.stop (Outcome.terminated e)) ∧
      (∀ embd, read_embd env.stof stdin = Except.ok embd →
        ¬ (env.llama_n_embd ctx = 0 ∨
          (int_cast embd.length = -(2 ^ 31) ∧ env.llama_n_embd ctx = -1)) →
        ((env.llama_eval ctx (hidden_input embd (env.llama_n_embd ctx)) 0
            params.n_threads).1 ≠ 0 →
          run_loaded env params ctx first_layer last_layer stdin
            = ⟨Outcome.returned 1,
                [⟨hidden_input embd (env.llama_n_embd ctx), 0, params.n_threads⟩], [], []⟩) ∧
        ((env.llama_eval ctx (hidden_input embd (env.llama_n_embd ctx)) 0
            params.n_threads).1 = 0 →
          last_layer ≠ env.llama_n_layer ctx →
          run_loaded env params ctx first_layer last_layer stdin
            = ⟨Outcome.returned 0,
                [⟨hidden_input embd (env.llama_n_embd ctx), 0, params.n_threads⟩], [],
                print_embeddings env.printf_f
                  (env.llama_get_embeddings (env.llama_eval ctx
                    (hidden_input embd (env.llama_n_embd ctx)) 0 params.n_threads).2)
                  (env.llama_n_embd (env.llama_eval ctx
                    (hidden_input embd (env.llama_n_embd ctx)) 0 params.n_threads).2)
                  (env.llama_n_embd ctx) 0⟩ ∧
          (run_loaded env params ctx first_layer last_layer stdin).out = []) ∧
        ((env.llama_eval ctx (hidden_input embd (env.llama_n_embd ctx)) 0
            params.n_threads).1 = 0 →
          last_layer = env.llama_n_layer ctx → 0 < params.repeat_last_n →
          run_loaded env params ctx first_layer last_layer stdin
            = ⟨Outcome.returned 0,
                [⟨hidden_input embd (env.llama_n_embd ctx), 0, params.n_threads⟩],
                [⟨List.replicate params.repeat_last_n.toNat 0, -1, params.repeat_last_n⟩],
                env.llama_token_to_str
                  (env.llama_eval ctx (hidden_input embd (env.llama_n_embd ctx)) 0
                    params.n_threads).2
                  (env.llama_sample_top_p_top_k
                    (env.llama_eval ctx (hidden_input embd (env.llama_n_embd ctx)) 0
                      params.n_threads).2
                    (window (List.replicate params.repeat_last_n.toNat 0) (-1)
                      params.repeat_last_n)
                    params.repeat_last_n params.top_k params.top_p params.temp
                    params.repeat_penalty)
                  ++ [NEWLINE]⟩))) := by
  refine ⟨has_tokens_as_input_iff _, has_tokens_as_output_iff _ _, ?_, ?_⟩
  · intro hfirst
    refine ⟨?_, ?_, ?_, ?_⟩
    · intro other
      rw [run_loaded_tokens env params ctx first_layer last_layer stdin hfirst,
        run_loaded_tokens env params ctx first_layer last_layer other hfirst]
    · intro hret
      rw [run_loaded_tokens env params ctx first_layer last_layer stdin hfirst]
      simp only [hret, ne_eq, not_false_eq_true, if_true]
    · intro hret hlast
      have hout : has_tokens_as_output last_layer (env.llama_n_layer ctx) = false := by
        simpa [has_tokens_as_output] using hlast
      rw [run_loaded_tokens env params ctx first_layer last_layer stdin hfirst]
      simp only [hret, ne_eq, not_true_eq_false, if_false,
        write_output_hidden _ _ _ _ _ _ _ _ hout, true_and]
      intro hD
      rw [hD]
      exact print_embeddings_eq_wire _ _ _ _
    · intro hret hlast hn
      have hout : has_tokens_as_output last_layer (env.llama_n_layer ctx) = true := by
        simp [has_tokens_as_output, hlast]
      have hn2 : 0 < ({ params with prompt := SPACE :: params.prompt } :
          gpt_params F).repeat_last_n := hn
      rw [run_loaded_tokens env params ctx first_layer last_layer stdin hfirst]
      simp only [hret, ne_eq, not_true_eq_false, if_false]
      rw [write_output_terminal env { params with prompt := SPACE :: params.prompt } _
        last_layer _ _ _ _ hout hn2]
  · intro hfirst
    refine ⟨fun prompt => run_loaded_prompt env params ctx first_layer last_layer stdin prompt
      hfirst, ?_, ?_⟩
    · intro e hread
      have hin : has_tokens_as_input first_layer = false := by
        simpa [has_tokens_as_input] using hfirst
      simp only [run_loaded, hin, hread, Bool.false_eq_true, if_false]
    · intro embd hread hdiv
      rw [run_loaded_hidden env params ctx first_layer last_layer stdin embd hfirst hread hdiv]
      refine ⟨?_, ?_, ?_⟩
      · intro hret
        simp only [hret, ne_eq, not_false_eq_true, if_true]
      · intro hret hlast
        have hout : has_tokens_as_output last_layer (env.llama_n_layer ctx) = false := by
          simpa [has_tokens_as_output] using hlast
        simp only [hret, ne_eq, not_true_eq_false, if_false,
          write_output_hidden _ _ _ _ _ _ _ _ hout, List.length_nil, true_and]
        exact print_embeddings_zero _ _ _ _
      · intro hret hlast hn
        have hout : has_tokens_as_output last_layer (env.llama_n_layer ctx) = true := by
          simp [has_tokens_as_output, hlast]
        simp only [hret, ne_eq, not_true_eq_false, if_false]
        rw [write_output_terminal env _ _ last_layer _ _ _ _ hout hn]

theorem flags_select_input_and_output_witness :
    (has_tokens_as_input 0 = true ↔ (0 : Int) = 0) ∧
      (has_tokens_as_output 2 (Toy.env.llama_n_layer []) = true
        ↔ (2 : Int) = Toy.env.llama_n_layer []) ∧
      run_loaded Toy.env Toy.loaded_params [] 0 2 Toy.one_row
        = ⟨Outcome.returned 0, [⟨tokens_input [1, 32], 0, 4⟩], [], "1 0\n0 0\n".toList⟩ ∧
      run_loaded Toy.env Toy.loaded_params [] 1 2 Toy.one_row
        = ⟨Outcome.returned 0, [⟨hidden_input [true, false] 2, 0, 4⟩], [], []⟩ ∧
      run_loaded Toy.env Toy.loaded_params [] 1 4 Toy.one_row
        = ⟨Outcome.returned 0, [⟨hidden_input [true, false] 2, 0, 4⟩],
            [⟨List.replicate 64 0, -1, 64⟩], [Char.ofNat 116, NEWLINE]⟩ :=
  ⟨(flags_select_input_and_output Toy.env Toy.loaded_params [] 0 2 Toy.one_row).1,
    (flags_select_input_and_output Toy.env Toy.loaded_params [] 0 2 Toy.one_row).2.1,
    (((flags_select_input_and_output Toy.env Toy.loaded_params [] 0 2 Toy.one_row).2.2.1
      rfl).2.2.1 rfl (by decide)).1,
    ((((flags_select_input_and_output Toy.env Toy.loaded_params [] 1 2 Toy.one_row).2.2.2
      (by decide)).2.2 [true, false] Toy.read_one_row (by decide)).2.1 rfl (by decide)).1,
    (((flags_select_input_and_output Toy.env Toy.loaded_params [] 1 4 Toy.one_row).2.2.2
      (by decide)).2.2 [true, false] Toy.read_one_row (by decide)).2.2 rfl rfl (by decide)⟩

/-- C4, as the claim states it, fails: on a middle stage whose standard
input is empty, no value is read, `embd.data()` is the null pointer, and the
driver calls `llama_eval` with the token pointer and the hidden pointer both
null (and `T = 0`). -/
theorem both_pointers_null_on_empty_input :
    read_embd Toy.env.stof [] = Except.ok [] ∧
      (main Toy.env Toy.argv_middle []).evals = [⟨⟨none, none, 0, 2⟩, 0, 4⟩] := by
  refine ⟨Toy.read_nothing, ?_⟩
  rw [Toy.main_middle, Toy.run_middle_nothing]

/-- C4, amended.  The calls of `llama_eval` in a run are given in full: with
`first = 0`, one call on the prompt tokens (token pointer set, hidden pointer
null, `T` the number of tokens, width 0); with `first ≠ 0`, no call when a
value of standard input does not parse or the width makes the division
undefined, and otherwise one call with a null token pointer, the hidden
pointer `embd.data()`, `T = count / n_embd` and the width `n_embd`.  So there
is at most one call, and exactly one in exactly the runs that reach the
evaluation step; every call has `n_past = 0`; the two pointers are never both
set, and they are both null exactly when `first ≠ 0` and no value was read
(`count = 0`); for a `count ≥ 1` the hidden pointer is set. -/
theorem eval_called_once_with_matching_input {F Ctx : Type} (env : Env F Ctx)
    (params : gpt_params F) (ctx : Ctx) (first_layer last_layer : Int) (stdin : List Char) :
    (run_loaded env params ctx first_layer last_layer stdin).evals
      = (if first_layer = 0 then
          [⟨⟨some (env.llama_tokenize ctx (SPACE :: params.prompt) true), none,
            int_cast (env.llama_tokenize ctx (SPACE :: params.prompt) true).length, 0⟩, 0,
            params.n_threads⟩]
        else
          match read_embd env.stof stdin with
          | Except.error _ => []
          | Except.ok embd =>
            if env.llama_n_embd ctx = 0 ∨
                (int_cast embd.length = -(2 ^ 31) ∧ env.llama_n_embd ctx = -1) then []
            else
              [⟨⟨none, vector_data embd, (int_cast embd.length).tdiv (env.llama_n_embd ctx),
                env.llama_n_embd ctx⟩, 0, params.n_threads⟩]) ∧
    (run_loaded env params ctx first_layer last_layer stdin).evals.length ≤ 1 ∧
    ((run_loaded env params ctx first_layer last_layer stdin).evals.length = 1 ↔
      first_layer = 0 ∨ ∃ embd, read_embd env.stof stdin = Except.ok embd ∧
        ¬ (env.llama_n_embd ctx = 0 ∨
          (int_cast embd.length = -(2 ^ 31) ∧ env.llama_n_embd ctx = -1))) ∧
    (∀ c ∈ (run_loaded env params ctx first_layer last_layer stdin).evals,
      c.n_past = 0 ∧
      ¬ (c.input.tokens.isSome = true ∧ c.input.embd.isSome = true) ∧
      ((c.input.tokens = none ∧ c.input.embd = none) ↔
        (first_layer ≠ 0 ∧ read_embd env.stof stdin = Except.ok []))) ∧
    ((env.llama_tokenize ctx (SPACE :: params.prompt) true).length < 2 ^ 31 →
      int_cast (env.llama_tokenize ctx (SPACE :: params.prompt) true).length
        = ((env.llama_tokenize ctx (SPACE :: params.prompt) true).length : Int)) ∧
    (∀ embd : List F, embd.length < 2 ^ 31 → 0 < env.llama_n_embd ctx →
      (int_cast embd.length).tdiv (env.llama_n_embd ctx)
        = ((embd.length / (env.llama_n_embd ctx).toNat : Nat) : Int)) ∧
    (∀ embd : List F, embd ≠ [] → vector_data embd = some embd) := by
  have hev : (run_loaded env params ctx first_layer last_layer stdin).evals
      = (if first_layer = 0 then
          [⟨⟨some (env.llama_tokenize ctx (SPACE :: params.prompt) true), none,
            int_cast (env.llama_tokenize ctx (SPACE :: params.prompt) true).length, 0⟩, 0,
            params.n_threads⟩]
        else
          match read_embd env.stof stdin with
          | Except.error _ => []
          | Except.ok embd =>
            if env.llama_n_embd ctx = 0 ∨
                (int_cast embd.length = -(2 ^ 31) ∧ env.llama_n_embd ctx = -1) then []
            else
              [⟨⟨none, vector_data embd, (int_cast embd.length).tdiv (env.llama_n_embd ctx),
                env.llama_n_embd ctx⟩, 0, params.n_threads⟩]) := by
    by_cases hfirst : first_layer = 0
    · rw [run_loaded_tokens env params ctx first_layer last_layer stdin hfirst, if_pos hfirst]
      split
      · rfl
      · rw [write_output_evals]; rfl
    · rw [if_neg hfirst]
      have hin : has_tokens_as_input first_layer = false := by
        simpa [has_tokens_as_input] using hfirst
      cases hread : read_embd env.stof stdin with
      | error e =>
        simp only [run_loaded, hin, hread, Bool.false_eq_true, if_false, Run.stop]
      | ok embd =>
        by_cases hdiv : env.llama_n_embd ctx = 0 ∨
            (int_cast embd.length = -(2 ^ 31) ∧ env.llama_n_embd ctx = -1)
        · simp only [run_loaded, eval_and_output, hin, hread, Bool.false_eq_true, if_false,
            hdiv, if_true, Run.stop]
        · rw [run_loaded_hidden env params ctx first_layer last_layer stdin embd hfirst hread
            hdiv]
          simp only [hdiv, if_false]
          split
          · rfl
          · rw [write_output_evals]; rfl
  have hvec : ∀ embd : List F, embd ≠ [] → vector_data embd = some embd := by
    intro embd hne
    obtain ⟨x, xs, rfl⟩ := List.exists_cons_of_ne_nil hne
    rfl
  refine ⟨hev, ?_, ?_, ?_, fun hlen => int_cast_of_lt _ hlen, ?_, hvec⟩
  · rw [hev]
    split
    · simp
    · split
      · simp
      · split <;> simp
  · by_cases hfirst : first_layer = 0
    · rw [hev, if_pos hfirst]
      simp [hfirst]
    · rw [if_neg hfirst] at hev
      cases hread : read_embd env.stof stdin with
      | error e =>
        rw [hread] at hev
        rw [hev]
        simp [hfirst]
      | ok embd =>
        rw [hread] at hev
        dsimp only at hev
        by_cases hdiv : env.llama_n_embd ctx = 0 ∨
            (int_cast embd.length = -(2 ^ 31) ∧ env.llama_n_embd ctx = -1)
        · rw [if_pos hdiv] at hev
          rw [hev]
          constructor
          · intro h
            simp at h
          · rintro (h | ⟨e2, he, hnd⟩)
            · exact absurd h hfirst
            · cases he
              exact absurd hdiv hnd
        · rw [if_neg hdiv] at hev
          rw [hev]
          simp only [List.length_singleton, true_iff]
          exact Or.inr ⟨embd, rfl, hdiv⟩
  · intro c hc
    by_cases hfirst : first_layer = 0
    · rw [hev, if_pos hfirst, List.mem_singleton] at hc
      subst hc
      simp [hfirst]
    · rw [if_neg hfirst] at hev
      cases hread : read_embd env.stof stdin with
      | error e =>
        rw [hread] at hev
        rw [hev] at hc
        simp at hc
      | ok embd =>
        rw [hread] at hev
        dsimp only at hev
        by_cases hdiv : env.llama_n_embd ctx = 0 ∨
            (int_cast embd.length = -(2 ^ 31) ∧ env.llama_n_embd ctx = -1)
        · rw [if_pos hdiv] at hev
          rw [hev] at hc
          simp at hc
        · rw [if_neg hdiv] at hev
          rw [hev, List.mem_singleton] at hc
          subst hc
          refine ⟨rfl, by simp, ?_⟩
          cases embd with
          | nil => simp [vector_data, hfirst]
          | cons x xs => simp [vector_data]
  · intro embd hlen hD
    rw [int_cast_of_lt _ hlen]
    exact tdiv_natCast embd.length _ hD

theorem eval_called_once_with_matching_input_witness :
    (run_loaded Toy.env Toy.loaded_params [] 0 2 []).evals
        = [⟨⟨some [1, 32], none, 2, 0⟩, 0, 4⟩] ∧
      (run_loaded Toy.env Toy.loaded_params [] 1 2 Toy.one_row).evals.length = 1 ∧
      (run_loaded Toy.env Toy.loaded_params [] 1 2 Toy.one_row).evals.length ≤ 1 :=
  ⟨(eval_called_once_with_matching_input Toy.env Toy.loaded_params [] 0 2 []).1,
    (eval_called_once_with_matching_input Toy.env Toy.loaded_params [] 1 2
      Toy.one_row).2.2.1.mpr
      (Or.inr ⟨[true, false], Toy.read_one_row, by decide⟩),
    (eval_called_once_with_matching_input Toy.env Toy.loaded_params [] 1 2 Toy.one_row).2.1⟩

/-- C9.  On a terminal stage with `repeat_last_n = n ≥ 1` the driver calls
the sampler once, on the vector of `n` zeros, with the window pointer at
offset `-1` of that vector: the first of the `n` values read lies before the
vector, and the window is not the vector. -/
theorem sampler_window_starts_before_vector {F Ctx : Type} (env : Env F Ctx)
    (params : gpt_params F) (ctx : Ctx) (last_layer n_embd : Int) (embd_inp : List Int)
    (evals : List (eval_call F)) (hn : 1 ≤ params.repeat_last_n) :
    (write_output env params ctx last_layer last_layer n_embd embd_inp evals).samples
        = [⟨List.replicate params.repeat_last_n.toNat 0, -1, params.repeat_last_n⟩] ∧
      vec_read (List.replicate params.repeat_last_n.toNat 0) (-1) = none ∧
      (window (List.replicate params.repeat_last_n.toNat 0) (-1) params.repeat_last_n).head?
        = some none ∧
      window (List.replicate params.repeat_last_n.toNat 0) (-1) params.repeat_last_n
        ≠ (List.replicate params.repeat_last_n.toNat 0).map some := by
  have hout : has_tokens_as_output last_layer last_layer = true := by
    simp [has_tokens_as_output]
  have hpos : 0 < params.repeat_last_n := by omega
  obtain ⟨m, hm⟩ : ∃ m, params.repeat_last_n.toNat = m + 1 :=
    ⟨params.repeat_last_n.toNat - 1, by omega⟩
  have hhead : (window (List.replicate params.repeat_last_n.toNat 0) (-1)
      params.repeat_last_n).head? = some none := by
    simp [window, hm, List.range_succ_eq_map, vec_read]
  refine ⟨?_, by simp [vec_read], hhead, ?_⟩
  · rw [write_output_terminal env params ctx last_layer last_layer n_embd embd_inp evals hout hpos]
  · intro h
    rw [h, hm] at hhead
    simp [List.replicate_succ] at hhead

theorem sampler_window_starts_before_vector_witness :
    (1 : Int) ≤ Toy.loaded_params.repeat_last_n ∧
      (run_loaded Toy.env Toy.loaded_params [] 2 4 Toy.one_row).samples
        = [⟨List.replicate 64 0, -1, 64⟩] ∧
      (write_output Toy.env Toy.loaded_params [true, false] 4 4 2 [] []).samples
        = [⟨List.replicate Toy.loaded_params.repeat_last_n.toNat 0, -1,
            Toy.loaded_params.repeat_last_n⟩] :=
  ⟨by decide, by
    rw [run_loaded_hidden Toy.env Toy.loaded_params [] 2 4 Toy.one_row [true, false]
      (by decide) Toy.read_one_row (by simp [Toy.env])]
    simp [Toy.env, hidden_input, vector_data, write_output, has_tokens_as_output,
      Toy.loaded_params, Toy.params],
    (sampler_window_starts_before_vector Toy.env Toy.loaded_params [true, false] 4 2 [] []
      (by decide)).1⟩

end StageDriver

/-! ## Exit status -/

namespace SplitCLI
open Cxx

/-- C5, as the claim states it, fails: for the range `first = 5`, `last = 3`
the split fails (`llama_model_split` returns 1) and `main` returns 0. -/
theorem invalid_range_exits_zero :
    llama_model_split Toy.layer_count Toy.writable "in.bin".toList "out.bin".toList 5 3 = 1 ∧
      (main (llama_model_split Toy.layer_count Toy.writable) Toy.argv_split_invalid).split_status
        = some 1 ∧
      (main (llama_model_split Toy.layer_count Toy.writable) Toy.argv_split_invalid).outcome
        = Outcome.returned 0 := by
  decide

/-- C5, amended.  The split CLI passes the two paths and the parsed range to
`llama_model_split` and does not use the value of the call: on four arguments
whose first two are integers `main` returns 0, whatever the call returned;
whenever `main` returns its status is 0, and how the run ends does not depend
on the library function. -/
theorem split_exit_status_ignores_result (split : List Char → List Char → Int → Int → Int)
    (argv : List (List Char)) :
    (∀ s, (main split argv).outcome = Outcome.returned s → s = 0) ∧
    (∀ other : List Char → List Char → Int → Int → Int,
      (main other argv).outcome = (main split argv).outcome) ∧
    (∀ (a0 a1 a2 fname_in fname_out : List Char) (first_layer last_layer : Int),
      argv = [a0, a1, a2, fname_in, fname_out] → stoi a1 = Except.ok first_layer →
      stoi a2 = Except.ok last_layer →
      main split argv
        = ⟨Outcome.returned 0, some (split fname_in fname_out first_layer last_layer)⟩) := by
  refine ⟨?_, ?_, ?_⟩
  · intro s h
    unfold main at h
    split at h
    · simp at h
    · split at h
      · split at h
        · simp at h
        · split at h
          · simp at h
          · simp only [Outcome.returned.injEq] at h
            exact h.symm
      · simp at h
  · intro other
    unfold main
    split
    · rfl
    · split
      · split
        · rfl
        · split <;> rfl
      · rfl
  · intro a0 a1 a2 fname_in fname_out first_layer last_layer hargv h1 h2
    subst hargv
    simp [main, h1, h2]

theorem split_exit_status_ignores_result_witness :
    main (llama_model_split Toy.layer_count Toy.writable) Toy.argv_split_invalid
      = ⟨Outcome.returned 0,
          some (llama_model_split Toy.layer_count Toy.writable "in.bin".toList "out.bin".toList
            5 3)⟩ :=
  (split_exit_status_ignores_result (llama_model_split Toy.layer_count Toy.writable)
    Toy.argv_split_invalid).2.2 "model-splitter".toList "5".toList "3".toList "in.bin".toList
    "out.bin".toList 5 3 rfl (by decide) (by decide)

end SplitCLI

namespace StageDriver
open Cxx

theorem write_output_returned {F Ctx : Type} (env : Env F Ctx) (params : gpt_params F)
    (ctx : Ctx) (last_layer n_layer n_embd : Int) (embd_inp : List Int)
    (evals : List (eval_call F)) (s : Int)
    (h : (write_output env params ctx last_layer n_layer n_embd embd_inp evals).outcome
      = Outcome.returned s) : s = 0 := by
  unfold write_output at h
  split at h
  · split at h
    · simp at h
    · split at h
      · simp at h
      · simp only [Outcome.returned.injEq] at h
        exact h.symm
  · simp only [Outcome.returned.injEq] at h
    exact h.symm

/-- The exit status of the loaded driver: it is 0 or 1, and it is 1 exactly
when the call of `llama_eval` returned a value other than 0. -/
theorem run_loaded_status {F Ctx : Type} (env : Env F Ctx) (params : gpt_params F) (ctx : Ctx)
    (first_layer last_layer : Int) (stdin : List Char) :
    (∀ s, (run_loaded env params ctx first_layer last_layer stdin).outcome = Outcome.returned s →
      s = 0 ∨ s = 1) ∧
    ((run_loaded env params ctx first_layer last_layer stdin).outcome = Outcome.returned 1 ↔
      ∃ c ∈ (run_loaded env params ctx first_layer last_layer stdin).evals,
        (env.llama_eval ctx c.input c.n_past c.n_threads).1 ≠ 0) := by
  rcases run_loaded_shape env params ctx first_layer last_layer stdin with
    ⟨_, h | h⟩ | ⟨call, _, _, _, h⟩
  · obtain ⟨e, _, h⟩ := h
    rw [h]
    simp [Run.stop]
  · rw [h]
    simp [Run.stop]
  · rcases h with ⟨hret, h⟩ | ⟨hret, p1, ei, _, _, _, h⟩
    · rw [h]
      simp [hret]
    · rw [h]
      refine ⟨fun s hs => Or.inl (write_output_returned _ _ _ _ _ _ _ _ s hs), ?_⟩
      constructor
      · intro h1
        have := write_output_returned _ _ _ _ _ _ _ _ 1 h1
        omega
      · rintro ⟨c, hc, hne⟩
        rw [write_output_evals] at hc
        simp only [List.mem_singleton] at hc
        subst hc
        exact absurd hret hne

/-- C10, as the claim states it, fails: with the positional argument `first`
given as `abc`, the driver does not exit with status 1; the exception
`std::invalid_argument` of `std::stoi` leaves `main`. -/
theorem non_integer_first_terminates :
    (main Toy.env Toy.argv_not_integer []).outcome
        = Outcome.terminated Exn.invalid_argument ∧
      (main Toy.env Toy.argv_not_integer []).outcome ≠ Outcome.returned 1 := by
  have h : main Toy.env Toy.argv_not_integer []
      = Run.stop (Outcome.terminated Exn.invalid_argument) := by
    have h1 : stoi "abc".toList = Except.error Exn.invalid_argument := by decide
    simp only [main, Toy.argv_not_integer, List.getElem?_cons_succ, List.getElem?_cons_zero, h1]
  rw [h]
  exact ⟨rfl, by simp [Run.stop]⟩

/-- C10, amended.  Whenever `main` returns, its status is 0 or 1.  On a run
whose positional arguments `first` and `last` are present and are integers,
the status is 1 when `gpt_params_parse` fails and when `llama_init_from_file`
returns `NULL`; once the model is loaded the status is 1 exactly when
`llama_eval` returned a value other than 0.  When a positional argument is
absent or is not an integer, `main` does not return. -/
theorem exit_status_of_stage_driver {F Ctx : Type} (env : Env F Ctx)
    (argv : List (List Char)) (stdin : List Char) :
    (∀ s, (main env argv stdin).outcome = Outcome.returned s → s = 0 ∨ s = 1) ∧
    (∀ (a1 a2 : List Char) (first_layer last_layer : Int),
      argv[1]? = some a1 → stoi a1 = Except.ok first_layer →
      argv[2]? = some a2 → stoi a2 = Except.ok last_layer →
      (env.gpt_params_parse (argv.drop 2)
          { env.gpt_params_default with model := "models/llama-7B/ggml-model.bin".toList }
          = none →
        (main env argv stdin).outcome = Outcome.returned 1) ∧
      ∀ parsed, env.gpt_params_parse (argv.drop 2)
          { env.gpt_params_default with model := "models/llama-7B/ggml-model.bin".toList }
          = some parsed →
        (env.llama_init_from_file (prepare_params env parsed).model
            (make_lparams (prepare_params env parsed) first_layer last_layer) = none →
          (main env argv stdin).outcome = Outcome.returned 1) ∧
        ∀ ctx, env.llama_init_from_file (prepare_params env parsed).model
            (make_lparams (prepare_params env parsed) first_layer last_layer) = some ctx →
          ((main env argv stdin).outcome = Outcome.returned 1 ↔
            ∃ c ∈ (main env argv stdin).evals,
              (env.llama_eval ctx c.input c.n_past c.n_threads).1 ≠ 0)) ∧
    ((argv[1]? = none ∨ (∃ a1 e, argv[1]? = some a1 ∧ stoi a1 = Except.error e) ∨
        argv[2]? = none ∨ (∃ a2 e, argv[2]? = some a2 ∧ stoi a2 = Except.error e)) →
      ∀ s, (main env argv stdin).outcome ≠ Outcome.returned s) := by
  refine ⟨?_, ?_, ?_⟩
  · intro s h
    cases h1 : argv[1]? with
    | none => simp [main, h1, Run.stop] at h
    | some a1 =>
      cases hf : stoi a1 with
      | error e => simp [main, h1, hf, Run.stop] at h
      | ok first_layer =>
        cases h2 : argv[2]? with
        | none => simp [main, h1, hf, h2, Run.stop] at h
        | some a2 =>
          cases hl : stoi a2 with
          | error e => simp [main, h1, hf, h2, hl, Run.stop] at h
          | ok last_layer =>
            cases hp : env.gpt_params_parse (argv.drop 2)
                { env.gpt_params_default with
                  model := "models/llama-7B/ggml-model.bin".toList } with
            | none =>
              simp only [main, h1, hf, h2, hl, hp, Run.stop, Outcome.returned.injEq] at h
              exact Or.inr h.symm
            | some parsed =>
              cases hc : env.llama_init_from_file (prepare_params env parsed).model
                  (make_lparams (prepare_params env parsed) first_layer last_layer) with
              | none =>
                simp only [main, h1, hf, h2, hl, hp, hc, Run.stop, Outcome.returned.injEq] at h
                exact Or.inr h.symm
              | some ctx =>
                rw [main_loaded env argv stdin a1 a2 first_layer last_layer parsed ctx
                  h1 hf h2 hl hp hc] at h
                exact (run_loaded_status env _ _ _ _ stdin).1 s h
  · intro a1 a2 first_layer last_layer h1 hf h2 hl
    refine ⟨fun hp => ?_, fun parsed hp => ⟨fun hc => ?_, fun ctx hc => ?_⟩⟩
    · simp only [main, h1, hf, h2, hl, hp, Run.stop]
    · simp only [main, h1, hf, h2, hl, hp, hc, Run.stop]
    · rw [main_loaded env argv stdin a1 a2 first_layer last_layer parsed ctx h1 hf h2 hl hp hc]
      exact (run_loaded_status env _ ctx first_layer last_layer stdin).2
  · intro h s
    rcases h with h | ⟨a1, e, h, he⟩ | h | ⟨a2, e, h, he⟩
    · simp only [main, h, Run.stop]
      simp
    · simp only [main, h, he, Run.stop]
      simp
    · cases h1 : argv[1]? with
      | none => simp [main, h1, Run.stop]
      | some a1 =>
        cases hf : stoi a1 with
        | error e => simp [main, h1, hf, Run.stop]
        | ok first_layer => simp [main, h1, hf, h, Run.stop]
    · cases h1 : argv[1]? with
      | none => simp [main, h1, Run.stop]
      | some a1 =>
        cases hf : stoi a1 with
        | error e => simp [main, h1, hf, Run.stop]
        | ok first_layer => simp [main, h1, hf, h, he, Run.stop]

theorem exit_status_of_stage_driver_witness :
    (main Toy.env Toy.argv_middle Toy.one_row).outcome = Outcome.returned 0 ∧
      ((main Toy.env Toy.argv_middle Toy.one_row).outcome = Outcome.returned 0 →
        (0 : Int) = 0 ∨ (0 : Int) = 1) :=
  ⟨by rw [Toy.main_middle, Toy.run_middle Toy.one_row _ Toy.read_one_row (by decide) (by decide)],
    (exit_status_of_stage_driver Toy.env Toy.argv_middle Toy.one_row).1 0⟩

end StageDriver

/-! ## The wire format: writer and reader -/

namespace StageDriver
open Cxx

theorem matrix_rows_length {F : Type} (buffer : Int → F) (D : Int) (T : Nat) :
    (matrix_rows buffer D T).length = T ∧
      ∀ row ∈ matrix_rows buffer D T, row.length = D.toNat := by
  unfold matrix_rows
  refine ⟨by simp, ?_⟩
  intro row hrow
  simp only [List.mem_map, List.mem_range] at hrow
  obtain ⟨j, _, rfl⟩ := hrow
  simp

theorem wire_row_head {F : Type} (printf_f : F → List Char) (c : Char) :
    ∀ row : List F, (∀ x ∈ row, printf_f x ≠ [] ∧ c ∉ printf_f x) →
      (wire_row printf_f row).head? ≠ some c
  | [], _ => by simp [wire_row, List.intercalate]
  | [x], h => by
    have hx := h x (by simp)
    simp only [wire_row, List.map_cons, List.map_nil, intercalate_single]
    intro hc
    exact hx.2 (List.mem_of_mem_head? hc)
  | x :: y :: row, h => by
    have hx := h x (by simp)
    simp only [wire_row, List.map_cons, intercalate_cons_cons, List.append_assoc]
    rw [List.head?_append_of_ne_nil _ hx.1]
    intro hc
    exact hx.2 (List.mem_of_mem_head? hc)

theorem wire_row_getLast {F : Type} (printf_f : F → List Char) (c : Char) :
    ∀ row : List F, (∀ x ∈ row, printf_f x ≠ [] ∧ c ∉ printf_f x) →
      (wire_row printf_f row).getLast? ≠ some c
  | [], _ => by simp [wire_row, List.intercalate]
  | [x], h => by
    have hx := h x (by simp)
    simp only [wire_row, List.map_cons, List.map_nil, intercalate_single]
    intro hc
    exact hx.2 (List.mem_of_mem_getLast? hc)
  | x :: y :: row, h => by
    have ih := wire_row_getLast printf_f c (y :: row) (fun z hz => h z (List.mem_cons_of_mem x hz))
    have hne : wire_row printf_f (y :: row) ≠ [] := by
      have hy := h y (by simp)
      cases row with
      | nil => simpa [wire_row, intercalate_single] using hy.1
      | cons z zs => simp [wire_row, intercalate_cons_cons, hy.1]
    have : wire_row printf_f (x :: y :: row)
        = (printf_f x ++ [SPACE]) ++ wire_row printf_f (y :: row) := by
      simp only [wire_row, List.map_cons, intercalate_cons_cons]
    rw [this, List.getLast?_append_of_ne_nil _ hne]
    exact ih

/-- C6.  The text a stage that is not terminal writes is the wire format of
the row-major matrix in the buffer of `llama_get_embeddings`: one line per
row, each line the `D = n_embd` formatted values `j * D + 0, ..., j * D + D - 1`
of the buffer with a single space between two neighbours, closed by a newline.
Every row has `D` values, and, a formatted value being non-empty and free of
spaces, no line starts or ends with a space. -/
theorem hidden_output_is_wire_format {F Ctx : Type} (env : Env F Ctx) (params : gpt_params F)
    (ctx : Ctx) (last_layer n_layer n_embd : Int) (embd_inp : List Int)
    (evals : List (eval_call F)) (hlast : last_layer ≠ n_layer)
    (hD : env.llama_n_embd ctx = n_embd) :
    (write_output env params ctx last_layer n_layer n_embd embd_inp evals).out
        = ((List.range embd_inp.length).map fun (j : Nat) =>
            List.intercalate [SPACE]
              ((List.range n_embd.toNat).map fun (i : Nat) =>
                env.printf_f (env.llama_get_embeddings ctx ((j : Int) * n_embd + (i : Int))))
              ++ [NEWLINE]).flatten ∧
      (write_output env params ctx last_layer n_layer n_embd embd_inp evals).out
        = wire_batch env.printf_f
            (matrix_rows (env.llama_get_embeddings ctx) n_embd embd_inp.length) ∧
      (∀ row ∈ matrix_rows (env.llama_get_embeddings ctx) n_embd embd_inp.length,
        row.length = n_embd.toNat ∧
        ((∀ x, env.printf_f x ≠ [] ∧ SPACE ∉ env.printf_f x) →
          (wire_row env.printf_f row).head? ≠ some SPACE ∧
            (wire_row env.printf_f row).getLast? ≠ some SPACE)) := by
  have hout : has_tokens_as_output last_layer n_layer = false := by
    simpa [has_tokens_as_output] using hlast
  have hw : (write_output env params ctx last_layer n_layer n_embd embd_inp evals).out
      = wire_batch env.printf_f
          (matrix_rows (env.llama_get_embeddings ctx) n_embd embd_inp.length) := by
    rw [write_output_hidden _ _ _ _ _ _ _ _ hout, hD]
    exact print_embeddings_eq_wire _ _ _ _
  refine ⟨?_, hw, ?_⟩
  · rw [hw]
    simp only [wire_batch, matrix_rows, wire_row, List.map_map, Function.comp_def]
  · intro row hrow
    refine ⟨(matrix_rows_length _ _ _).2 row hrow, fun hfmt => ?_⟩
    exact ⟨wire_row_head env.printf_f SPACE row (fun x _ => hfmt x),
      wire_row_getLast env.printf_f SPACE row (fun x _ => hfmt x)⟩

theorem hidden_output_is_wire_format_witness :
    (2 : Int) ≠ 4 ∧ Toy.env.llama_n_embd [true, false] = 2 ∧
      (write_output Toy.env Toy.loaded_params [true, false] 2 4 2 [1] []).out
        = wire_batch Toy.env.printf_f
            (matrix_rows (Toy.env.llama_get_embeddings [true, false]) 2 [1].length) ∧
      wire_batch Toy.env.printf_f
            (matrix_rows (Toy.env.llama_get_embeddings [true, false]) 2 [1].length)
        = Toy.one_row :=
  ⟨by decide, rfl,
    (hidden_output_is_wire_format Toy.env Toy.loaded_params [true, false] 2 4 2 [1] []
      (by decide) rfl).2.1,
    by decide⟩

theorem mem_wire_row {F : Type} (printf_f : F → List Char) (c : Char) :
    ∀ row : List F, c ∈ wire_row printf_f row → c = SPACE ∨ ∃ x ∈ row, c ∈ printf_f x
  | [], h => by simp [wire_row, List.intercalate] at h
  | [x], h => by
    simp only [wire_row, List.map_cons, List.map_nil, intercalate_single] at h
    exact Or.inr ⟨x, by simp, h⟩
  | x :: y :: row, h => by
    have hsplit : wire_row printf_f (x :: y :: row)
        = (printf_f x ++ [SPACE]) ++ wire_row printf_f (y :: row) := by
      simp only [wire_row, List.map_cons, intercalate_cons_cons]
    rw [hsplit] at h
    simp only [List.mem_append, List.mem_singleton] at h
    rcases h with (h | h) | h
    · exact Or.inr ⟨x, by simp, h⟩
    · exact Or.inl h
    · rcases mem_wire_row printf_f c (y :: row) h with h | ⟨z, hz, hc⟩
      · exact Or.inl h
      · exact Or.inr ⟨z, List.mem_cons_of_mem x hz, hc⟩

/-- Cutting the wire format of a row at spaces gives back its formatted
values. -/
theorem getlines_wire_row {F : Type} (printf_f : F → List Char) :
    ∀ row : List F, (∀ x ∈ row, printf_f x ≠ [] ∧ SPACE ∉ printf_f x) →
      getlines SPACE (wire_row printf_f row) = row.map printf_f
  | [], _ => by simp [wire_row, List.intercalate]
  | [x], h => by
    have hx := h x (by simp)
    simp only [wire_row, List.map_cons, List.map_nil, intercalate_single]
    exact getlines_last SPACE _ hx.2 hx.1
  | x :: y :: row, h => by
    have hx := h x (by simp)
    have ih := getlines_wire_row printf_f (y :: row)
      (fun z hz => h z (List.mem_cons_of_mem x hz))
    have hsplit : wire_row printf_f (x :: y :: row)
        = printf_f x ++ SPACE :: wire_row printf_f (y :: row) := by
      simp only [wire_row, List.map_cons, intercalate_cons_cons, List.append_assoc,
        List.singleton_append]
    rw [hsplit, getlines_line SPACE _ _ hx.2, ih]
    rfl

/-- Cutting the wire format of a batch at newlines gives back its rows. -/
theorem getlines_wire_batch {F : Type} (printf_f : F → List Char) :
    ∀ rows : List (List F), (∀ row ∈ rows, NEWLINE ∉ wire_row printf_f row) →
      getlines NEWLINE (wire_batch printf_f rows) = rows.map (wire_row printf_f)
  | [], _ => by simp [wire_batch]
  | row :: rows, h => by
    have ih := getlines_wire_batch printf_f rows (fun r hr => h r (List.mem_cons_of_mem row hr))
    have hsplit : wire_batch printf_f (row :: rows)
        = wire_row printf_f row ++ NEWLINE :: wire_batch printf_f rows := by
      simp [wire_batch]
    rw [hsplit, getlines_line NEWLINE _ _ (h row (by simp)), ih]
    rfl

theorem push_back_all_map {F : Type} (printf_f : F → List Char)
    (stof : List Char → Except Exn F) (q : F → F)
    (hstof : ∀ x, stof (printf_f x) = Except.ok (q x)) :
    ∀ xs : List F, push_back_all stof (xs.map printf_f) = Except.ok (xs.map q)
  | [] => rfl
  | x :: xs => by
    simp only [List.map_cons, push_back_all, hstof x, push_back_all_map printf_f stof q hstof xs]

/-- The reader on the wire format of a batch: the values of the rows in
order, each printed and parsed. -/
theorem read_embd_wire_batch {F : Type} (printf_f : F → List Char)
    (stof : List Char → Except Exn F) (q : F → F)
    (hfmt : ∀ x, printf_f x ≠ [] ∧ SPACE ∉ printf_f x ∧ NEWLINE ∉ printf_f x)
    (hstof : ∀ x, stof (printf_f x) = Except.ok (q x)) (rows : List (List F)) :
    read_embd stof (wire_batch printf_f rows) = Except.ok (rows.flatten.map q) := by
  have hnl : ∀ row ∈ rows, NEWLINE ∉ wire_row printf_f row := by
    intro row _ hmem
    rcases mem_wire_row printf_f NEWLINE row hmem with h | ⟨x, _, hx⟩
    · exact absurd h (by decide)
    · exact (hfmt x).2.2 hx
  have hseg : read_segments (wire_batch printf_f rows) = rows.flatten.map printf_f := by
    unfold read_segments
    rw [getlines_wire_batch printf_f rows hnl, List.flatMap_def, List.map_map, List.map_flatten]
    congr 1
    apply List.map_congr_left
    intro row _
    exact getlines_wire_row printf_f row (fun x _ => ⟨(hfmt x).1, (hfmt x).2.1⟩)
  rw [read_embd, hseg]
  exact push_back_all_map printf_f stof q hstof _

theorem matrix_rows_flatten {F : Type} (buffer : Int → F) (D T : Nat) :
    (matrix_rows buffer (D : Int) T).flatten
      = (List.range (T * D)).map fun (k : Nat) => buffer (k : Int) := by
  induction T with
  | zero => simp [matrix_rows]
  | succ T ih =>
    have hstep : matrix_rows buffer (D : Int) (T + 1)
        = matrix_rows buffer (D : Int) T
          ++ [(List.range D).map fun (i : Nat) => buffer (((T * D + i : Nat)) : Int)] := by
      simp only [matrix_rows, List.range_succ, List.map_append, List.map_cons, List.map_nil,
        Int.toNat_ofNat]
      congr 2
    rw [hstep, List.flatten_append, ih, Nat.succ_mul, List.range_add, List.map_append]
    simp [List.map_map, Function.comp_def]

/-- C7.  Round trip of the wire format.  Given that a formatted value is not
empty and holds neither a space nor a newline, and that `std::stof` parses
every formatted value `x` (to `q x`, the value up to printing precision): for
every `T`, every `D ≥ 1` and every buffer holding a row-major `T × D` matrix,
the reader applied to the text of the output loop returns exactly `T * D`
values, the `k`-th being the parse of the `k`-th value printed; their number
is divisible by `D`, its quotient by `D` is `T`, and (for `T ≥ 1` and
`T * D < 2^31`) the input the next stage builds from them has the hidden
pointer set, `T` positions and the width `D`. -/
theorem wire_round_trip {F : Type} (printf_f : F → List Char)
    (stof : List Char → Except Exn F) (q : F → F) (embeddings : Int → F) (T D : Nat)
    (hD : 1 ≤ D)
    (hfmt : ∀ x, printf_f x ≠ [] ∧ SPACE ∉ printf_f x ∧ NEWLINE ∉ printf_f x)
    (hstof : ∀ x, stof (printf_f x) = Except.ok (q x)) :
    ∃ vals : List F,
      read_embd stof (print_embeddings printf_f embeddings (D : Int) (D : Int) T)
        = Except.ok vals ∧
      vals = (List.range (T * D)).map (fun (k : Nat) => q (embeddings (k : Int))) ∧
      vals.length = T * D ∧ vals.length % D = 0 ∧ vals.length / D = T ∧
      (1 ≤ T → T * D < 2 ^ 31 →
        hidden_input vals (D : Int) = ⟨none, some vals, (T : Int), (D : Int)⟩) := by
  refine ⟨(List.range (T * D)).map (fun (k : Nat) => q (embeddings (k : Int))), ?_, rfl, ?_, ?_,
    ?_, ?_⟩
  · rw [print_embeddings_eq_wire, read_embd_wire_batch printf_f stof q hfmt hstof,
      matrix_rows_flatten, List.map_map]
    rfl
  · simp
  · simp
  · simp only [List.length_map, List.length_range]
    exact Nat.mul_div_cancel T (by omega)
  · intro hT hlen
    have hl : ((List.range (T * D)).map (fun (k : Nat) => q (embeddings (k : Int)))).length
        = T * D := by simp
    have hpos : 0 < T * D := Nat.mul_pos (by omega) (by omega)
    have hne : (List.range (T * D)).map (fun (k : Nat) => q (embeddings (k : Int))) ≠ [] := by
      intro h
      rw [h] at hl
      simp at hl
      omega
    obtain ⟨x, xs, hx⟩ := List.exists_cons_of_ne_nil hne
    have hvec : vector_data ((List.range (T * D)).map
        (fun (k : Nat) => q (embeddings (k : Int))))
        = some ((List.range (T * D)).map (fun (k : Nat) => q (embeddings (k : Int)))) := by
      rw [hx]
      rfl
    simp only [hidden_input, hl, int_cast_of_lt _ hlen, hvec]
    rw [tdiv_natCast (T * D) (D : Int) (by omega), Int.toNat_ofNat,
      Nat.mul_div_cancel T (by omega)]

theorem wire_round_trip_witness :
    (1 : Nat) ≤ 2 ∧
      (∀ x, Toy.printf_f x ≠ [] ∧ SPACE ∉ Toy.printf_f x ∧ NEWLINE ∉ Toy.printf_f x) ∧
      (∀ x, Toy.stof (Toy.printf_f x) = Except.ok (id x)) ∧
      print_embeddings Toy.printf_f (Toy.env.llama_get_embeddings [true, false]) 2 2 1
        = Toy.one_row ∧
      ∃ vals : List Bool,
        read_embd Toy.stof
            (print_embeddings Toy.printf_f (Toy.env.llama_get_embeddings [true, false])
              ((2 : Nat) : Int) ((2 : Nat) : Int) 1)
          = Except.ok vals ∧
        vals = (List.range (1 * 2)).map
          (fun (k : Nat) => id (Toy.env.llama_get_embeddings [true, false] (k : Int))) ∧
        vals.length = 1 * 2 ∧ vals.length % 2 = 0 ∧ vals.length / 2 = 1 ∧
        (1 ≤ 1 → 1 * 2 < 2 ^ 31 →
          hidden_input vals ((2 : Nat) : Int) = ⟨none, some vals, ((1 : Nat) : Int),
            ((2 : Nat) : Int)⟩) :=
  ⟨by decide, by decide, by decide, by decide,
    wire_round_trip Toy.printf_f Toy.stof id (Toy.env.llama_get_embeddings [true, false]) 1 2
      (by decide) (by decide) (by decide)⟩

theorem read_segments_append (a b : List Char) :
    read_segments (a ++ NEWLINE :: b) = read_segments a ++ read_segments b := by
  unfold read_segments
  rw [getlines_append, List.flatMap_append]
  congr 1
  rcases getlines_closed NEWLINE a with h | h
  · rw [h]
  · rw [h, List.flatMap_append]
    simp

theorem push_back_all_append {F : Type} (stof : List Char → Except Exn F) :
    ∀ (s1 s2 : List (List Char)) (xs ys : List F),
      push_back_all stof s1 = Except.ok xs → push_back_all stof s2 = Except.ok ys →
      push_back_all stof (s1 ++ s2) = Except.ok (xs ++ ys)
  | [], s2, xs, ys, h1, h2 => by
    simp only [push_back_all, Except.ok.injEq] at h1
    subst h1
    simpa using h2
  | seg :: s1, s2, xs, ys, h1, h2 => by
    simp only [push_back_all] at h1
    cases hs : stof seg with
    | error e => simp [hs] at h1
    | ok x =>
      cases hr : push_back_all stof s1 with
      | error e => simp [hs, hr] at h1
      | ok xs1 =>
        simp only [hs, hr, Except.ok.injEq] at h1
        subst h1
        have ih := push_back_all_append stof s1 s2 xs1 ys hr h2
        show push_back_all stof (seg :: (s1 ++ s2)) = Except.ok (x :: (xs1 ++ ys))
        simp only [push_back_all, hs, ih]

/-- C8, as the claim states it, fails: on a standard input of two rows with
a blank line between them, the reader collects the values of both rows, those
after the blank line included. -/
theorem values_after_blank_line_are_read :
    getlines NEWLINE Toy.blank_between = ["1 0".toList, [], "0 1".toList] ∧
      read_embd Toy.env.stof Toy.one_row = Except.ok [true, false] ∧
      read_embd Toy.env.stof Toy.blank_between = Except.ok [true, false, false, true] := by
  refine ⟨?_, Toy.read_one_row, Toy.read_blank_between⟩
  simp [Toy.blank_between, getlines_cons, NEWLINE]

/-- C8, amended.  The hidden-state reader ends the batch at the end of
standard input only.  A blank line neither ends the batch nor adds a value:
for all texts `a` and `b`, the strings parsed from `a`, a newline, a blank
line and `b` are those of `a` followed by those of `b`, and when the values
of `a` and of `b` parse, the batch is the values of `a` followed by the values
of `b`. -/
theorem reader_continues_after_blank_line {F : Type} (stof : List Char → Except Exn F)
    (a b : List Char) :
    read_segments (a ++ NEWLINE :: NEWLINE :: b) = read_segments a ++ read_segments b ∧
      (∀ xs ys, read_embd stof a = Except.ok xs → read_embd stof b = Except.ok ys →
        read_embd stof (a ++ NEWLINE :: NEWLINE :: b) = Except.ok (xs ++ ys)) := by
  have hseg : read_segments (a ++ NEWLINE :: NEWLINE :: b)
      = read_segments a ++ read_segments b := by
    rw [read_segments_append a (NEWLINE :: b)]
    have := read_segments_append [] b
    simp only [List.nil_append] at this
    rw [this]
    simp [read_segments]
  refine ⟨hseg, ?_⟩
  intro xs ys ha hb
  unfold read_embd at ha hb ⊢
  rw [hseg]
  exact push_back_all_append stof _ _ xs ys ha hb

theorem reader_continues_after_blank_line_witness :
    read_embd Toy.stof Toy.one_row = Except.ok [true, false] ∧
      read_embd Toy.stof (Toy.one_row ++ NEWLINE :: NEWLINE :: Toy.one_row)
        = Except.ok ([true, false] ++ [true, false]) :=
  ⟨Toy.read_one_row,
    (reader_continues_after_blank_line Toy.stof Toy.one_row Toy.one_row).2 [true, false]
      [true, false] Toy.read_one_row Toy.read_one_row⟩

end StageDriver
